import Mathlib

/-!
Verification of the cost-estimation pipeline of the `trade-` repository.

The Python source under `src/trading/trading/src` is shallowly embedded here:
float arithmetic is modelled by `ℝ`, Python `None`-returning functions by
`Option`, and functions that can raise by `Except`.  Each definition carries a
note naming the Python function it embeds.
-/

namespace Trade

/-- Models Python's `str.lower()` (used for the `side` arguments): lower-case
every character.  (`String.toLower` itself does not reduce in the kernel, so we
spell out the same computation over the character list.) -/
def pylower (s : String) : String := String.mk (s.data.map Char.toLower)

/-- Models Python's `int(x)` on a float: truncation toward zero. -/
noncomputable def pytrunc (x : ℝ) : ℤ := if 0 ≤ x then ⌊x⌋ else ⌈x⌉

/-! ## Orderbook  (`src/data/orderbook.py`)

An order-book side is a list of `(price, quantity)` pairs.  `update` receives
the snapshot's sides after the `float(...)` parsing of the textual pairs
(string-to-float parsing itself is not modelled; the parsed numbers are the
inputs).  The timestamp/exchange/symbol fields and the processing-time ring
buffer are wall-clock bookkeeping and are not part of any claim, so they are
omitted from the state. -/

structure Orderbook where
  max_depth : ℕ := 50
  asks : List (ℝ × ℝ)
  bids : List (ℝ × ℝ)

/-- Embeds `Orderbook.update` (orderbook.py lines 37-69): sort asks ascending
and bids descending by price (Python `sorted` is a stable sort, modelled by
`List.mergeSort`), truncate each side to `max_depth`, and replace the previous
book. -/
noncomputable def Orderbook.update (ob : Orderbook) (asks bids : List (ℝ × ℝ)) : Orderbook :=
  { ob with
    asks := (asks.mergeSort (fun a b => decide (a.1 ≤ b.1))).take ob.max_depth
    bids := (bids.mergeSort (fun a b => decide (b.1 ≤ a.1))).take ob.max_depth }

/-- Embeds `Orderbook.get_mid_price` (orderbook.py lines 71-83). -/
noncomputable def Orderbook.get_mid_price (ob : Orderbook) : Option ℝ :=
  match ob.asks, ob.bids with
  | (best_ask, _) :: _, (best_bid, _) :: _ => some ((best_ask + best_bid) / 2)
  | _, _ => none

/-- Embeds `Orderbook.get_spread` (orderbook.py lines 85-97). -/
noncomputable def Orderbook.get_spread (ob : Orderbook) : Option ℝ :=
  match ob.asks, ob.bids with
  | (best_ask, _) :: _, (best_bid, _) :: _ => some (best_ask - best_bid)
  | _, _ => none

/-- Embeds the ask-side loop of `get_volume_up_to_price` (orderbook.py lines
148-153): accumulate quantities while the level price is `≤ price`, stopping at
the first level that fails the test. -/
noncomputable def cum_vol_le (price : ℝ) : List (ℝ × ℝ) → ℝ
  | [] => 0
  | (p, q) :: rest => if p ≤ price then q + cum_vol_le price rest else 0

/-- Embeds the bid-side loop of `get_volume_up_to_price` (orderbook.py lines
154-159): accumulate quantities while the level price is `≥ price`. -/
noncomputable def cum_vol_ge (price : ℝ) : List (ℝ × ℝ) → ℝ
  | [] => 0
  | (p, q) :: rest => if price ≤ p then q + cum_vol_ge price rest else 0

/-- Embeds `Orderbook.get_volume_up_to_price` (orderbook.py lines 135-161);
an unrecognised side returns the initial `volume = 0.0`. -/
noncomputable def Orderbook.get_volume_up_to_price (ob : Orderbook) (side : String) (price : ℝ) : ℝ :=
  if pylower side = ("ask") then cum_vol_le price ob.asks
  else if pylower side = ("bid") then cum_vol_ge price ob.bids
  else 0

/-- Embeds the level walk of `get_price_for_volume` (orderbook.py lines
174-187): subtract each level's quantity from the remaining volume and return
the level's price as soon as the remainder is `≤ 0`. -/
noncomputable def price_for_vol : ℝ → List (ℝ × ℝ) → Option ℝ
  | _, [] => none
  | remaining, (p, q) :: rest =>
      if remaining - q ≤ 0 then some p else price_for_vol (remaining - q) rest

/-- Embeds `Orderbook.get_price_for_volume` (orderbook.py lines 163-187);
an unrecognised side falls through to the final `return None`. -/
noncomputable def Orderbook.get_price_for_volume (ob : Orderbook) (side : String) (volume : ℝ) : Option ℝ :=
  if pylower side = ("ask") then price_for_vol volume ob.asks
  else if pylower side = ("bid") then price_for_vol volume ob.bids
  else none

/-- Embeds `Orderbook.get_orderbook_imbalance` (orderbook.py lines 189-205). -/
noncomputable def Orderbook.get_orderbook_imbalance (ob : Orderbook) : Option ℝ :=
  match ob.asks, ob.bids with
  | _ :: _, _ :: _ =>
      let bid_volume := (ob.bids.map Prod.snd).sum
      let ask_volume := (ob.asks.map Prod.snd).sum
      if bid_volume + ask_volume = 0 then some 0
      else some ((bid_volume - ask_volume) / (bid_volume + ask_volume))
  | _, _ => none

/-! ## Fee model  (`src/models/fee_model.py`)

Python's nested fee-tier dict is modelled by `FeeVal`: a node is either a rate
(float leaf) or a table (dict) of string-keyed entries.  A dict subscript that
raises `KeyError`, or treating a float level as a dict (`TypeError`), is
modelled as `none`. -/

inductive FeeVal where
  | rate (r : ℝ)
  | table (entries : List (String × FeeVal))

/-- Dict lookup on an association list (Python `d[k]` / `k in d`). -/
def FeeVal.find? : List (String × FeeVal) → String → Option FeeVal
  | [], _ => none
  | (k, v) :: rest, key => if k = key then some v else FeeVal.find? rest key

/-- Projects a `FeeVal` that is used as a dict. -/
def FeeVal.asTable : FeeVal → Option (List (String × FeeVal))
  | .table entries => some entries
  | .rate _ => none

/-- Projects a `FeeVal` that is used as a numeric rate. -/
def FeeVal.asRate : FeeVal → Option ℝ
  | .rate r => some r
  | .table _ => none

/-- True on rate leaves. -/
def FeeVal.isRate : FeeVal → Bool
  | .rate _ => true
  | .table _ => false

/-- The `'maker'` bucket of the default OKX spot table (fee_model.py lines 27-34). -/
noncomputable def okx_spot_maker : List (String × FeeVal) :=
  [(("VIP0"), .rate 0.0010), (("VIP1"), .rate 0.0008), (("VIP2"), .rate 0.0006),
   (("VIP3"), .rate 0.0004), (("VIP4"), .rate 0.0002), (("VIP5"), .rate 0.0000)]

/-- The `'taker'` bucket of the default OKX spot table (fee_model.py lines 35-42). -/
noncomputable def okx_spot_taker : List (String × FeeVal) :=
  [(("VIP0"), .rate 0.0015), (("VIP1"), .rate 0.0010), (("VIP2"), .rate 0.0008),
   (("VIP3"), .rate 0.0005), (("VIP4"), .rate 0.0003), (("VIP5"), .rate 0.0001)]

/-- The `'maker'` bucket of the default OKX futures table (fee_model.py lines 45-52). -/
noncomputable def okx_futures_maker : List (String × FeeVal) :=
  [(("VIP0"), .rate 0.0002), (("VIP1"), .rate 0.0001), (("VIP2"), .rate 0.0000),
   (("VIP3"), .rate (-0.0001)), (("VIP4"), .rate (-0.0002)), (("VIP5"), .rate (-0.0003))]

/-- The `'taker'` bucket of the default OKX futures table (fee_model.py lines 53-60). -/
noncomputable def okx_futures_taker : List (String × FeeVal) :=
  [(("VIP0"), .rate 0.0005), (("VIP1"), .rate 0.0004), (("VIP2"), .rate 0.0003),
   (("VIP3"), .rate 0.0002), (("VIP4"), .rate 0.0001), (("VIP5"), .rate 0.0000)]

/-- The `'spot'` market table of the default OKX entry. -/
noncomputable def okx_spot_table : List (String × FeeVal) :=
  [(("maker"), .table okx_spot_maker), (("taker"), .table okx_spot_taker)]

/-- The `'futures'` market table of the default OKX entry. -/
noncomputable def okx_futures_table : List (String × FeeVal) :=
  [(("maker"), .table okx_futures_maker), (("taker"), .table okx_futures_taker)]

/-- The `'OKX'` exchange table of the default fee tiers. -/
noncomputable def okx_exchange_table : List (String × FeeVal) :=
  [(("spot"), .table okx_spot_table), (("futures"), .table okx_futures_table)]

/-- The default `self.fee_tiers` built by `FeeModel.__init__` (fee_model.py
lines 24-63). -/
noncomputable def default_fee_tiers : List (String × FeeVal) :=
  [(("OKX"), .table okx_exchange_table)]

/-- Embeds `FeeModel.get_fee_rate` (fee_model.py lines 65-96): substitute the
fallback key at each level whenever the requested key is absent, then subscript
the nested dicts; `none` models an uncaught `KeyError`/`TypeError` from those
subscripts. -/
def get_fee_rate (fee_tiers : List (String × FeeVal))
    (exchange market_type fee_tier : String) (is_maker : Bool) : Option ℝ :=
  let ex := if (FeeVal.find? fee_tiers exchange).isSome then exchange else ("OKX")
  match (FeeVal.find? fee_tiers ex).bind FeeVal.asTable with
  | none => none
  | some exchange_table =>
    let mt := if (FeeVal.find? exchange_table market_type).isSome then market_type else ("spot")
    match (FeeVal.find? exchange_table mt).bind FeeVal.asTable with
    | none => none
    | some market_table =>
      let order_type := if is_maker then ("maker") else ("taker")
      match (FeeVal.find? market_table order_type).bind FeeVal.asTable with
      | none => none
      | some bucket =>
        let ft := if (FeeVal.find? bucket fee_tier).isSome then fee_tier else ("VIP0")
        match FeeVal.find? bucket ft with
        | none => none
        | some v => FeeVal.asRate v

/-- Result record of `FeeModel.calculate_fee` (fee_model.py lines 127-132). -/
structure FeeResult where
  maker_fee : ℝ
  taker_fee : ℝ
  total_fee : ℝ
  effective_rate : ℝ

/-- Embeds `FeeModel.calculate_fee` (fee_model.py lines 98-132). -/
noncomputable def calculate_fee (fee_tiers : List (String × FeeVal)) (order_value : ℝ)
    (exchange market_type fee_tier : String) (maker_proportion : ℝ) : Option FeeResult :=
  match get_fee_rate fee_tiers exchange market_type fee_tier true,
        get_fee_rate fee_tiers exchange market_type fee_tier false with
  | some maker_rate, some taker_rate =>
      let maker_value := order_value * maker_proportion
      let taker_value := order_value * (1 - maker_proportion)
      let maker_fee := maker_value * maker_rate
      let taker_fee := taker_value * taker_rate
      let total_fee := maker_fee + taker_fee
      some { maker_fee := maker_fee, taker_fee := taker_fee, total_fee := total_fee,
             effective_rate := if order_value > 0 then total_fee / order_value else 0 }
  | _, _ => none

/-- Embeds `FeeModel.add_exchange_fee_tiers` (fee_model.py lines 134-143):
Python dict assignment `self.fee_tiers[exchange] = fee_tiers` replaces the
entry if the key exists and appends it otherwise. -/
def add_exchange_fee_tiers (fee_tiers : List (String × FeeVal))
    (exchange : String) (tiers : FeeVal) : List (String × FeeVal) :=
  if (FeeVal.find? fee_tiers exchange).isSome then
    fee_tiers.map (fun kv => if kv.1 = exchange then (exchange, tiers) else kv)
  else fee_tiers ++ [(exchange, tiers)]

/-! ## Slippage model  (`src/models/slippage_model.py`)

The sklearn regressors are external library state; the embedding keeps the
configuration and the `is_fitted` flag, which is all the control flow of
`__init__`/`fit`/`estimate_slippage` depends on.  `fit`'s sample matrix is
represented by its row count (`X.shape[0]`), the only feature of the data that
the function's control flow inspects.  `Except String` carries a raised
`ValueError`. -/

structure SlippageModel where
  regression_type : String := ("linear")
  quantile : ℝ := 0.5
  is_fitted : Bool := false

/-- Embeds `SlippageModel.__init__` (slippage_model.py lines 22-34).  The
constructor body contains no `raise`, so it always succeeds; the `Except`
result type records that construction is where a fail-fast error would have to
surface. -/
def SlippageModel.init (regression_type : String) (quantile : ℝ) : Except String SlippageModel :=
  .ok { regression_type := regression_type, quantile := quantile, is_fitted := false }

/-- Embeds `SlippageModel.fit` (slippage_model.py lines 36-61): with fewer than
10 samples the call is a logged no-op; otherwise an unknown `regression_type`
raises `ValueError`, and a known one fits the model and sets `is_fitted`. -/
def SlippageModel.fit (m : SlippageModel) (n_samples : ℕ) : Except String SlippageModel :=
  if n_samples < 10 then .ok m
  else if m.regression_type = ("linear") then .ok { m with is_fitted := true }
  else if m.regression_type = ("quantile") then .ok { m with is_fitted := true }
  else .error (("Unknown regression type: ") ++ m.regression_type)

/-- Embeds `SlippageModel._estimate_slippage_fallback` (slippage_model.py lines
110-136); `np.log1p x` is `Real.log (1 + x)`. -/
noncomputable def estimate_slippage_fallback
    (order_size spread volatility orderbook_imbalance : ℝ) : ℝ :=
  let base_slippage := spread * 0.5
  let size_factor := Real.log (1 + order_size) * 0.1
  let vol_factor := volatility * 2.0
  let imbalance_factor := -orderbook_imbalance * spread * 0.3
  base_slippage + size_factor + vol_factor + imbalance_factor

/-- Embeds `MakerTakerModel._estimate_maker_proportion_fallback`
(maker_taker.py lines 97-136). -/
noncomputable def estimate_maker_proportion_fallback
    (order_size spread volatility orderbook_imbalance : ℝ) : ℝ :=
  let base_proportion := 0.5
  let size_factor := -0.1 * Real.log (1 + order_size) / 10.0
  let spread_factor := 0.1 * Real.tanh spread
  let vol_factor := -0.2 * volatility
  let imbalance_factor := 0.1 * orderbook_imbalance
  max 0.0 (min 1.0 (base_proportion + size_factor + spread_factor + vol_factor + imbalance_factor))

/-! ## Almgren-Chriss model  (`src/models/market_impact.py`) -/

structure AlmgrenChrissModel where
  temporary_impact_factor : ℝ := 0.1
  permanent_impact_factor : ℝ := 0.01
  market_vol_factor : ℝ := 0.5
  risk_aversion : ℝ := 0.001

/-- The model built by `AlmgrenChrissModel()` with default parameters, as the
simulator's `__init__` does. -/
noncomputable def defaultAC : AlmgrenChrissModel := {}

/-- Result record of `calculate_market_impact` (market_impact.py lines 118-123). -/
structure ImpactResult where
  temporary_impact : ℝ
  permanent_impact : ℝ
  execution_risk : ℝ
  total_impact : ℝ

/-- Embeds `AlmgrenChrissModel.calculate_market_impact` (market_impact.py
lines 48-123). -/
noncomputable def AlmgrenChrissModel.calculate_market_impact (m : AlmgrenChrissModel)
    (order_size avg_daily_volume volatility mid_price orderbook_depth : ℝ)
    (execution_time : ℝ := 1.0) : ImpactResult :=
  let normalized_size := if avg_daily_volume > 0 then order_size / avg_daily_volume else 0
  let trading_rate := order_size / execution_time
  let size_scaling := if normalized_size > 0 then Real.sqrt normalized_size else 1.0
  let temporary_impact := m.temporary_impact_factor * mid_price * trading_rate *
    size_scaling * (1 + m.market_vol_factor * volatility)
  let permanent_impact := m.permanent_impact_factor * mid_price * order_size
  let execution_risk := 0.5 * m.risk_aversion * volatility ^ 2 * execution_time * order_size ^ 2
  let depth_adjustment :=
    if orderbook_depth > 0 then 1.0 + Real.tanh (order_size / orderbook_depth) else 1.0
  let temporary_impact := temporary_impact * depth_adjustment
  { temporary_impact := temporary_impact, permanent_impact := permanent_impact,
    execution_risk := execution_risk,
    total_impact := temporary_impact + permanent_impact + execution_risk }

/-- Number of slices `n_intervals = max(int(time_horizon * 4), 2)`
(market_impact.py line 141). -/
noncomputable def n_intervals (time_horizon : ℝ) : ℕ :=
  (max (pytrunc (time_horizon * 4)) 2).toNat

/-- The time points `np.linspace(0, time_horizon, n_intervals)` (market_impact.py
line 144): `times[i] = time_horizon * i / (n_intervals - 1)`. -/
noncomputable def schedule_times (time_horizon : ℝ) (i : ℕ) : ℝ :=
  time_horizon * i / ((n_intervals time_horizon : ℝ) - 1)

/-- Trade sizes of the risk-neutral (`alpha == 0`) branch (market_impact.py
lines 166-175): `total_size / (n - 1)` for the first `n - 1` slices, last slice
left at its initial `0`. -/
noncomputable def rn_trade (n : ℕ) (trade_per_step : ℝ) (i : ℕ) : ℝ :=
  if i < n - 1 then trade_per_step else 0

/-- Remaining inventory of the risk-averse branch (market_impact.py lines
183-191): fixed to `total_size` at `i = 0`, and for `i ≥ 1` the closed-form
`total_size * sinh(sqrt(alpha*gamma) * (T - t_i)) / sinh(sqrt(alpha*gamma) * T)`.

This is the exact-arithmetic reading: real division returns `0` at a zero
denominator, whereas the source's float64 arithmetic yields
`np.sinh(0)/np.sinh(0) = NaN` when `sinh(sqrt(alpha*gamma) * T) = 0` (for the
default parameters: exactly at `time_horizon = 0`).  `ra_remaining_float`
below is the float64-faithful version; theorems about the schedule's sum are
stated against it. -/
noncomputable def ra_remaining (m : AlmgrenChrissModel)
    (total_size time_horizon volatility : ℝ) (i : ℕ) : ℝ :=
  if i = 0 then total_size
  else
    total_size * Real.sinh (Real.sqrt (m.risk_aversion * volatility ^ 2 *
        m.temporary_impact_factor) * (time_horizon - schedule_times time_horizon i)) /
      Real.sinh (Real.sqrt (m.risk_aversion * volatility ^ 2 *
        m.temporary_impact_factor) * time_horizon)

/-- Trade sizes of the risk-averse branch (market_impact.py lines 193-198):
inventory decrements for the first `n - 1` slices, and
`trade_sizes[-1] = remaining_sizes[-1]` for the last slice. -/
noncomputable def ra_trade (m : AlmgrenChrissModel)
    (total_size time_horizon volatility : ℝ) (n i : ℕ) : ℝ :=
  if i < n - 1 then
    ra_remaining m total_size time_horizon volatility i -
      ra_remaining m total_size time_horizon volatility (i + 1)
  else ra_remaining m total_size time_horizon volatility (n - 1)

/-- Embeds the final adjustment (market_impact.py lines 200-202): when the
trade sizes do not sum to `total_size` within `1e-10`, add the whole residual
to the final slice. -/
noncomputable def apply_final_correction (total_size : ℝ) (trade_sizes : List ℝ) : List ℝ :=
  if |trade_sizes.sum - total_size| > 1e-10 then
    trade_sizes.set (trade_sizes.length - 1)
      (trade_sizes.getD (trade_sizes.length - 1) 0 + (total_size - trade_sizes.sum))
  else trade_sizes

/-- The `trade_sizes` array before the final correction (market_impact.py
lines 157-198): branch on `alpha = risk_aversion * volatility**2`. -/
noncomputable def schedule_pre (m : AlmgrenChrissModel)
    (total_size time_horizon volatility : ℝ) : List ℝ :=
  if m.risk_aversion * volatility ^ 2 = 0 then
    List.ofFn (fun i : Fin (n_intervals time_horizon) =>
      rn_trade (n_intervals time_horizon)
        (total_size / ((n_intervals time_horizon : ℝ) - 1)) i)
  else
    List.ofFn (fun i : Fin (n_intervals time_horizon) =>
      ra_trade m total_size time_horizon volatility (n_intervals time_horizon) i)

/-- Embeds `AlmgrenChrissModel.calculate_optimal_execution_schedule`
(market_impact.py lines 125-204), returning the `(times, trade_sizes)` pair. -/
noncomputable def AlmgrenChrissModel.calculate_optimal_execution_schedule
    (m : AlmgrenChrissModel) (total_size time_horizon volatility : ℝ) : List ℝ × List ℝ :=
  let n := n_intervals time_horizon
  let times := List.ofFn (fun i : Fin n => schedule_times time_horizon i)
  (times, apply_final_correction total_size (schedule_pre m total_size time_horizon volatility))

/-! ### Float64 model of the schedule

The schedule arrays are NumPy `float64`; the one operation whose float
behaviour differs observably from exact real arithmetic is the division in
the remaining-inventory formula, which produces a non-finite value (NaN) when
`sinh_term = 0`.  The following definitions re-embed lines 157-204 of
market_impact.py with `Option ℝ` values, `none` modelling that NaN, which
propagates through every subsequent arithmetic operation and makes every
comparison (`>`) false. -/

/-- Float64 subtraction: NaN-propagating. -/
noncomputable def osub : Option ℝ → Option ℝ → Option ℝ
  | some a, some b => some (a - b)
  | _, _ => none

/-- Float64 addition: NaN-propagating. -/
noncomputable def oadd : Option ℝ → Option ℝ → Option ℝ
  | some a, some b => some (a + b)
  | _, _ => none

/-- `np.sum` over float64 trade sizes: any NaN makes the sum NaN. -/
noncomputable def osum (l : List (Option ℝ)) : Option ℝ := l.foldr oadd (some 0)

/-- The float64 division of the remaining-inventory formula: a zero
denominator produces a non-finite result, modelled by `none`.  On every input
this formula reaches with `alpha * gamma ≥ 0` the numerator vanishes together
with the denominator (`sinh(κT) = 0` forces `κT = 0` and then every
`κ(T - t_i) = 0`), so the non-finite value is precisely `0/0 = NaN`. -/
noncomputable def npdiv (x y : ℝ) : Option ℝ := if y = 0 then none else some (x / y)

/-- `ra_remaining` as float64 (market_impact.py lines 183-191):
`remaining_factor = np.sinh(κ(T - t_i)) / sinh_term` is NaN when
`sinh_term = 0`, and NaN times `total_size` stays NaN. -/
noncomputable def ra_remaining_float (m : AlmgrenChrissModel)
    (total_size time_horizon volatility : ℝ) (i : ℕ) : Option ℝ :=
  if i = 0 then some total_size
  else (npdiv (Real.sinh (Real.sqrt (m.risk_aversion * volatility ^ 2 *
          m.temporary_impact_factor) * (time_horizon - schedule_times time_horizon i)))
      (Real.sinh (Real.sqrt (m.risk_aversion * volatility ^ 2 *
          m.temporary_impact_factor) * time_horizon))).map (fun x => total_size * x)

/-- `ra_trade` as float64 (market_impact.py lines 193-198). -/
noncomputable def ra_trade_float (m : AlmgrenChrissModel)
    (total_size time_horizon volatility : ℝ) (n i : ℕ) : Option ℝ :=
  if i < n - 1 then
    osub (ra_remaining_float m total_size time_horizon volatility i)
      (ra_remaining_float m total_size time_horizon volatility (i + 1))
  else ra_remaining_float m total_size time_horizon volatility (n - 1)

/-- `schedule_pre` as float64.  The risk-neutral branch involves no division
by a vanishing quantity (`n - 1 ≥ 1`), so its entries are always finite. -/
noncomputable def schedule_pre_float (m : AlmgrenChrissModel)
    (total_size time_horizon volatility : ℝ) : List (Option ℝ) :=
  if m.risk_aversion * volatility ^ 2 = 0 then
    List.ofFn (fun i : Fin (n_intervals time_horizon) =>
      some (rn_trade (n_intervals time_horizon)
        (total_size / ((n_intervals time_horizon : ℝ) - 1)) i))
  else
    List.ofFn (fun i : Fin (n_intervals time_horizon) =>
      ra_trade_float m total_size time_horizon volatility (n_intervals time_horizon) i)

/-- The final correction as float64 (market_impact.py lines 200-202): when
the sum is NaN the guard `np.abs(nan - total_size) > 1e-10` is False (every
comparison against NaN is), so the correction is skipped and the NaN trade
sizes are returned unchanged. -/
noncomputable def apply_final_correction_float (total_size : ℝ)
    (trade_sizes : List (Option ℝ)) : List (Option ℝ) :=
  match osum trade_sizes with
  | none => trade_sizes
  | some s =>
      if |s - total_size| > 1e-10 then
        trade_sizes.set (trade_sizes.length - 1)
          (oadd (trade_sizes.getD (trade_sizes.length - 1) (some 0)) (some (total_size - s)))
      else trade_sizes

/-- `calculate_optimal_execution_schedule` with float64 trade sizes
(market_impact.py lines 125-204); the time points carry no division hazard
(`n - 1 ≥ 1`) and stay plain reals. -/
noncomputable def calculate_optimal_execution_schedule_float (m : AlmgrenChrissModel)
    (total_size time_horizon volatility : ℝ) : List ℝ × List (Option ℝ) :=
  (List.ofFn (fun i : Fin (n_intervals time_horizon) => schedule_times time_horizon i),
   apply_final_correction_float total_size
     (schedule_pre_float m total_size time_horizon volatility))

/-! ## Trade simulator  (`src/models/simulator.py`)

`TradeSimulator.__init__` builds a fresh `SlippageModel()`, `MakerTakerModel()`
(both unfitted, hence on their heuristic fallback paths), a default
`AlmgrenChrissModel()` and a default `FeeModel()`; `simulate_market_order` is
embedded against those defaults.  The `Except` error values model the two
tagged error dicts plus the one Python exception that could escape: `KeyError`
from the fee-table subscripts.  The execution-price division by `quantity`
never raises: its numerator `slippage + temporary_impact` is a NumPy `float64`
(`np.log1p` feeds the slippage fallback and `np.tanh` the depth adjustment of
the temporary impact), and NumPy scalar division by zero produces a non-finite
`float64` with a `RuntimeWarning`, not a `ZeroDivisionError` — the result dict
is still returned in full. -/

inductive SimError where
  | emptyOrderbook
  | invalidMetrics
  | keyError
deriving DecidableEq

/-- The result dict of a successful `simulate_market_order` (simulator.py lines
156-174), minus the timestamp/symbol/processing-time bookkeeping fields. -/
structure CostEstimate where
  side : String
  quantity : ℝ
  mid_price : ℝ
  execution_price : ℝ
  order_value : ℝ
  maker_proportion : ℝ
  fees : FeeResult
  slippage : ℝ
  slippage_percentage : ℝ
  market_impact : ImpactResult
  market_impact_percentage : ℝ
  net_cost : ℝ
  net_cost_percentage : ℝ

/-- Embeds `TradeSimulator.simulate_market_order` (simulator.py lines 74-174).
The execution-price computation (lines 147-150) divides a NumPy `float64`
numerator by `quantity`, which is total also at `quantity = 0` (non-finite
result plus a `RuntimeWarning`); real division (`x / 0 = 0`) is likewise
total, so the embedding diverges from the source only in the numeric value of
`execution_price` at `quantity = 0`, never in the shape of the result. -/
noncomputable def simulate_market_order (book : Orderbook) (side : String) (quantity : ℝ)
    (exchange market_type fee_tier : String) (volatility : ℝ) :
    Except SimError CostEstimate :=
  if book.asks.isEmpty || book.bids.isEmpty then .error .emptyOrderbook
  else
    match book.get_mid_price, book.get_spread, book.get_orderbook_imbalance with
    | some mid_price, some spread, some orderbook_imbalance =>
      let order_value := quantity * mid_price
      let maker_proportion :=
        estimate_maker_proportion_fallback quantity spread volatility orderbook_imbalance
      match calculate_fee default_fee_tiers order_value exchange market_type fee_tier
          maker_proportion with
      | none => .error .keyError
      | some fees =>
        let slippage := estimate_slippage_fallback quantity spread volatility orderbook_imbalance
        let orderbook_depth := (book.bids.map Prod.snd).sum + (book.asks.map Prod.snd).sum
        let avg_daily_volume := orderbook_depth * 100
        let market_impact := defaultAC.calculate_market_impact quantity avg_daily_volume
          volatility mid_price orderbook_depth 1.0
        let net_cost := fees.total_fee + slippage + market_impact.total_impact
        let net_cost_percentage := if order_value > 0 then net_cost / order_value * 100 else 0
        let execution_price :=
          if pylower side = ("buy") then
            mid_price + (slippage + market_impact.temporary_impact) / quantity
          else
            mid_price - (slippage + market_impact.temporary_impact) / quantity
        .ok { side := side, quantity := quantity, mid_price := mid_price,
              execution_price := execution_price, order_value := order_value,
              maker_proportion := maker_proportion, fees := fees, slippage := slippage,
              slippage_percentage :=
                if order_value > 0 then slippage / order_value * 100 else 0,
              market_impact := market_impact,
              market_impact_percentage :=
                if order_value > 0 then market_impact.total_impact / order_value * 100 else 0,
              net_cost := net_cost, net_cost_percentage := net_cost_percentage }
    | _, _, _ => .error .invalidMetrics

/-- A small concrete book used to instantiate hypotheses of the theorems below. -/
noncomputable def testBook : Orderbook := { max_depth := 50, asks := [(101, 2)], bids := [(99, 1)] }

/-! ## Helper lemmas about the fee-table lookup -/

/-- A successful dict lookup returns an entry of the list. -/
lemma FeeVal.find?_mem {l : List (String × FeeVal)} {key : String} {v : FeeVal}
    (h : FeeVal.find? l key = some v) : (key, v) ∈ l := by
  induction l with
  | nil => simp [FeeVal.find?] at h
  | cons kv rest ih =>
      obtain ⟨k, w⟩ := kv
      by_cases hk : k = key
      · subst hk
        rw [FeeVal.find?, if_pos rfl] at h
        obtain rfl : w = v := by injection h
        exact List.mem_cons_self _ _
      · rw [FeeVal.find?, if_neg hk] at h
        exact List.mem_cons_of_mem _ (ih h)

/-- Every value stored in one of the four default leaf buckets is a rate, and
every bucket contains the `'VIP0'` key.  The fallback-tier lookup therefore
always produces a rate. -/
lemma find?_fallback_rate {bucket : List (String × FeeVal)}
    (hrates : ∀ kv ∈ bucket, FeeVal.isRate kv.2 = true)
    (hvip : ∃ v, FeeVal.find? bucket ("VIP0") = some v) (fee_tier : String) :
    ∃ r, FeeVal.find? bucket
      (if (FeeVal.find? bucket fee_tier).isSome then fee_tier else ("VIP0")) = some (.rate r) := by
  by_cases hft : (FeeVal.find? bucket fee_tier).isSome
  · rw [if_pos hft]
    obtain ⟨v, hv⟩ := Option.isSome_iff_exists.mp hft
    have hr := hrates _ (FeeVal.find?_mem hv)
    cases v with
    | rate r => exact ⟨r, hv⟩
    | table es => simp [FeeVal.isRate] at hr
  · rw [if_neg hft]
    obtain ⟨v, hv⟩ := hvip
    have hr := hrates _ (FeeVal.find?_mem hv)
    cases v with
    | rate r => exact ⟨r, hv⟩
    | table es => simp [FeeVal.isRate] at hr

lemma okx_spot_maker_rates : ∀ kv ∈ okx_spot_maker, FeeVal.isRate kv.2 = true := by
  intro kv h
  simp only [okx_spot_maker, List.mem_cons, List.not_mem_nil, or_false] at h
  rcases h with h | h | h | h | h | h <;> subst h <;> rfl

lemma okx_spot_taker_rates : ∀ kv ∈ okx_spot_taker, FeeVal.isRate kv.2 = true := by
  intro kv h
  simp only [okx_spot_taker, List.mem_cons, List.not_mem_nil, or_false] at h
  rcases h with h | h | h | h | h | h <;> subst h <;> rfl

lemma okx_futures_maker_rates : ∀ kv ∈ okx_futures_maker, FeeVal.isRate kv.2 = true := by
  intro kv h
  simp only [okx_futures_maker, List.mem_cons, List.not_mem_nil, or_false] at h
  rcases h with h | h | h | h | h | h <;> subst h <;> rfl

lemma okx_futures_taker_rates : ∀ kv ∈ okx_futures_taker, FeeVal.isRate kv.2 = true := by
  intro kv h
  simp only [okx_futures_taker, List.mem_cons, List.not_mem_nil, or_false] at h
  rcases h with h | h | h | h | h | h <;> subst h <;> rfl

/-- On the default table the exchange lookup (with its `'OKX'` fallback) always
lands on the OKX exchange table. -/
lemma default_exchange_lookup (exchange : String) :
    FeeVal.find? default_fee_tiers
      (if (FeeVal.find? default_fee_tiers exchange).isSome then exchange else ("OKX"))
      = some (.table okx_exchange_table) := by
  by_cases he : (FeeVal.find? default_fee_tiers exchange).isSome
  · rw [if_pos he]
    obtain ⟨v, hv⟩ := Option.isSome_iff_exists.mp he
    have hmem := FeeVal.find?_mem hv
    simp only [default_fee_tiers, List.mem_cons, List.not_mem_nil, or_false,
      Prod.mk.injEq] at hmem
    rw [hv, hmem.2]
  · rw [if_neg he]; rfl

/-- On the OKX exchange table the market-type lookup (with its `'spot'`
fallback) lands on the spot or the futures table. -/
lemma okx_market_lookup (market_type : String) :
    FeeVal.find? okx_exchange_table
        (if (FeeVal.find? okx_exchange_table market_type).isSome then market_type else ("spot"))
        = some (.table okx_spot_table)
    ∨ FeeVal.find? okx_exchange_table
        (if (FeeVal.find? okx_exchange_table market_type).isSome then market_type else ("spot"))
        = some (.table okx_futures_table) := by
  by_cases hm : (FeeVal.find? okx_exchange_table market_type).isSome
  · rw [if_pos hm]
    obtain ⟨v, hv⟩ := Option.isSome_iff_exists.mp hm
    have hmem := FeeVal.find?_mem hv
    simp only [okx_exchange_table, List.mem_cons, List.not_mem_nil, or_false,
      Prod.mk.injEq] at hmem
    rcases hmem with ⟨_, hval⟩ | ⟨_, hval⟩
    · exact Or.inl (by rw [hv, hval])
    · exact Or.inr (by rw [hv, hval])
  · rw [if_neg hm]
    exact Or.inl rfl

/-- Totality of `get_fee_rate` on the default table: for arbitrary exchange,
market-type and tier strings the fallback chain always resolves to a rate. -/
lemma default_get_fee_rate_total (exchange market_type fee_tier : String) (is_maker : Bool) :
    ∃ r, get_fee_rate default_fee_tiers exchange market_type fee_tier is_maker = some r := by
  unfold get_fee_rate
  simp only [default_exchange_lookup exchange, Option.some_bind, FeeVal.asTable]
  rcases okx_market_lookup market_type with hmt | hmt <;>
    simp only [hmt, Option.some_bind, FeeVal.asTable] <;> cases is_maker
  · obtain ⟨r, hr⟩ := find?_fallback_rate okx_spot_taker_rates ⟨_, rfl⟩ fee_tier
    exact ⟨r, by
      simp only [Bool.false_eq_true, if_false,
        show FeeVal.find? okx_spot_table ("taker") = some (.table okx_spot_taker) from rfl,
        Option.some_bind, FeeVal.asTable, hr, FeeVal.asRate]⟩
  · obtain ⟨r, hr⟩ := find?_fallback_rate okx_spot_maker_rates ⟨_, rfl⟩ fee_tier
    exact ⟨r, by
      simp only [if_true,
        show FeeVal.find? okx_spot_table ("maker") = some (.table okx_spot_maker) from rfl,
        Option.some_bind, FeeVal.asTable, hr, FeeVal.asRate]⟩
  · obtain ⟨r, hr⟩ := find?_fallback_rate okx_futures_taker_rates ⟨_, rfl⟩ fee_tier
    exact ⟨r, by
      simp only [Bool.false_eq_true, if_false,
        show FeeVal.find? okx_futures_table ("taker") = some (.table okx_futures_taker) from rfl,
        Option.some_bind, FeeVal.asTable, hr, FeeVal.asRate]⟩
  · obtain ⟨r, hr⟩ := find?_fallback_rate okx_futures_maker_rates ⟨_, rfl⟩ fee_tier
    exact ⟨r, by
      simp only [if_true,
        show FeeVal.find? okx_futures_table ("maker") = some (.table okx_futures_maker) from rfl,
        Option.some_bind, FeeVal.asTable, hr, FeeVal.asRate]⟩

/-- `calculate_fee` on the default table always returns a result. -/
lemma default_calculate_fee_total (order_value : ℝ) (exchange market_type fee_tier : String)
    (maker_proportion : ℝ) :
    ∃ fr, calculate_fee default_fee_tiers order_value exchange market_type fee_tier
      maker_proportion = some fr := by
  obtain ⟨mr, hmr⟩ := default_get_fee_rate_total exchange market_type fee_tier true
  obtain ⟨tr, htr⟩ := default_get_fee_rate_total exchange market_type fee_tier false
  exact ⟨_, by rw [calculate_fee, hmr, htr]⟩

/-! ## Claim C3 — where `UnknownRegressionType` is raised -/

/-- C3 counterexample: `SlippageModel('cubic')` does NOT fail fast — the
constructor succeeds with the invalid regression type stored, and the
`ValueError` only surfaces later, when `fit` is called with at least 10
samples.  This refutes the claim that the error is raised at construction
time. -/
theorem claim_C3_counterexample :
    SlippageModel.init ("cubic") 0.5
      = .ok { regression_type := ("cubic"), quantile := 0.5, is_fitted := false }
    ∧ SlippageModel.fit { regression_type := ("cubic"), quantile := 0.5, is_fitted := false } 10
      = .error (("Unknown regression type: ") ++ ("cubic")) :=
  ⟨rfl, rfl⟩

/-- C3 amended: constructing a `SlippageModel` with any regression type always
succeeds; the `UnknownRegressionType` `ValueError` is raised at `fit` time,
when `fit` is invoked with at least 10 samples and the stored regression type
is neither `'linear'` nor `'quantile'`. -/
theorem claim_C3_fit_time_error (regression_type : String) (quantile : ℝ) (n_samples : ℕ)
    (h10 : 10 ≤ n_samples) (hlin : regression_type ≠ ("linear"))
    (hq : regression_type ≠ ("quantile")) :
    SlippageModel.init regression_type quantile
      = .ok { regression_type := regression_type, quantile := quantile, is_fitted := false }
    ∧ SlippageModel.fit
        { regression_type := regression_type, quantile := quantile, is_fitted := false } n_samples
      = .error (("Unknown regression type: ") ++ regression_type) := by
  refine ⟨rfl, ?_⟩
  unfold SlippageModel.fit
  rw [if_neg (by omega), if_neg hlin, if_neg hq]

/-- Witness for C3: the amended theorem applied at the concrete input
`('cubic', 0.5, 12 samples)`. -/
theorem claim_C3_witness :
    (10 ≤ 12 ∧ ("cubic" : String) ≠ ("linear") ∧ ("cubic" : String) ≠ ("quantile"))
    ∧ (SlippageModel.init ("cubic") 0.5
        = .ok { regression_type := ("cubic"), quantile := 0.5, is_fitted := false }
      ∧ SlippageModel.fit
          { regression_type := ("cubic"), quantile := 0.5, is_fitted := false } 12
        = .error (("Unknown regression type: ") ++ ("cubic"))) :=
  ⟨⟨by norm_num, by decide, by decide⟩,
    claim_C3_fit_time_error ("cubic") 0.5 12 (by norm_num) (by decide) (by decide)⟩

/-! ## Helper lemmas about the execution schedule -/

/-- The schedule always has at least two slices. -/
lemma two_le_n_intervals (time_horizon : ℝ) : 2 ≤ n_intervals time_horizon := by
  unfold n_intervals
  have h := le_max_right (pytrunc (time_horizon * 4)) 2
  omega

/-- Python's `max(int(time_horizon * 4), 2)` agrees with `max ⌊time_horizon * 4⌋ 2`:
truncation and floor differ only on negative non-integers, where the `max`
with `2` hides the difference. -/
lemma n_intervals_eq_max_floor (time_horizon : ℝ) :
    (n_intervals time_horizon : ℤ) = max ⌊time_horizon * 4⌋ 2 := by
  unfold n_intervals pytrunc
  by_cases h : 0 ≤ time_horizon * 4
  · rw [if_pos h]
    exact Int.toNat_of_nonneg (le_trans (by norm_num) (le_max_right _ _))
  · rw [if_neg h]
    have hc : ⌈time_horizon * 4⌉ ≤ (0 : ℤ) :=
      Int.ceil_le.mpr (by exact_mod_cast (not_le.mp h).le)
    have hf : ⌊time_horizon * 4⌋ ≤ 0 := Int.floor_nonpos (not_le.mp h).le
    rw [max_eq_right (by omega : ⌈time_horizon * 4⌉ ≤ (2 : ℤ)),
      max_eq_right (by omega : ⌊time_horizon * 4⌋ ≤ (2 : ℤ))]
    rfl

/-- `getD` on a `List.ofFn` below the length. -/
lemma getD_ofFn {n : ℕ} (f : Fin n → ℝ) {i : ℕ} (h : i < n) :
    (List.ofFn f).getD i 0 = f ⟨i, h⟩ := by
  rw [List.getD_eq_getElem?_getD, List.getElem?_ofFn]
  simp [List.ofFnNthVal, h]

/-- The risk-neutral trade sizes sum to `total_size` exactly. -/
lemma rn_trade_sum {n : ℕ} (hn : 2 ≤ n) (total_size : ℝ) :
    (List.ofFn fun i : Fin n => rn_trade n (total_size / ((n : ℝ) - 1)) i).sum = total_size := by
  obtain ⟨k, rfl⟩ : ∃ k, n = k + 1 + 1 := ⟨n - 2, by omega⟩
  rw [List.sum_ofFn, Fin.sum_univ_eq_sum_range, Finset.sum_range_succ]
  have hlast : rn_trade (k + 1 + 1) (total_size / ((k + 1 + 1 : ℕ) - 1 : ℝ)) (k + 1) = 0 := by
    unfold rn_trade
    rw [if_neg (by omega)]
  have hstep : ∀ i ∈ Finset.range (k + 1),
      rn_trade (k + 1 + 1) (total_size / ((k + 1 + 1 : ℕ) - 1 : ℝ)) i
        = total_size / ((k + 1 + 1 : ℕ) - 1 : ℝ) := by
    intro i hi
    rw [Finset.mem_range] at hi
    unfold rn_trade
    rw [if_pos (by omega)]
  rw [Finset.sum_congr rfl hstep, Finset.sum_const, Finset.card_range, hlast, add_zero,
    nsmul_eq_mul]
  have hcast : ((k + 1 + 1 : ℕ) : ℝ) - 1 = ((k + 1 : ℕ) : ℝ) := by push_cast; ring
  rw [hcast, mul_comm, div_mul_cancel₀]
  exact Nat.cast_ne_zero.mpr (by omega)

/-- The risk-averse trade sizes telescope to `total_size` exactly: the first
`n - 1` entries are inventory decrements and the last entry is the remaining
inventory at the final time point. -/
lemma ra_trade_sum (m : AlmgrenChrissModel) (total_size time_horizon volatility : ℝ)
    {n : ℕ} (hn : 1 ≤ n) :
    (List.ofFn fun i : Fin n => ra_trade m total_size time_horizon volatility n i).sum
      = total_size := by
  obtain ⟨k, rfl⟩ : ∃ k, n = k + 1 := ⟨n - 1, by omega⟩
  rw [List.sum_ofFn, Fin.sum_univ_eq_sum_range, Finset.sum_range_succ]
  have hlast : ra_trade m total_size time_horizon volatility (k + 1) k
      = ra_remaining m total_size time_horizon volatility k := by
    unfold ra_trade
    rw [if_neg (by omega)]
    norm_num
  have hstep : ∀ i ∈ Finset.range k,
      ra_trade m total_size time_horizon volatility (k + 1) i
        = ra_remaining m total_size time_horizon volatility i
          - ra_remaining m total_size time_horizon volatility (i + 1) := by
    intro i hi
    rw [Finset.mem_range] at hi
    unfold ra_trade
    rw [if_pos (by omega)]
  have h0 : ra_remaining m total_size time_horizon volatility 0 = total_size := by
    unfold ra_remaining
    rw [if_pos rfl]
  rw [Finset.sum_congr rfl hstep,
    Finset.sum_range_sub' (fun i => ra_remaining m total_size time_horizon volatility i) k,
    hlast, h0]
  ring

/-- The pre-correction trade sizes sum to `total_size` in both branches. -/
lemma schedule_pre_sum (m : AlmgrenChrissModel) (total_size time_horizon volatility : ℝ) :
    (schedule_pre m total_size time_horizon volatility).sum = total_size := by
  unfold schedule_pre
  by_cases ha : m.risk_aversion * volatility ^ 2 = 0
  · rw [if_pos ha]
    exact rn_trade_sum (two_le_n_intervals time_horizon) total_size
  · rw [if_neg ha]
    exact ra_trade_sum m total_size time_horizon volatility
      (le_trans (by norm_num) (two_le_n_intervals time_horizon))

/-- When the trade sizes already sum to `total_size`, the final correction is
the identity. -/
lemma correction_of_exact (total_size : ℝ) {l : List ℝ} (h : l.sum = total_size) :
    apply_final_correction total_size l = l := by
  unfold apply_final_correction
  rw [if_neg (by rw [h, sub_self, abs_zero]; norm_num)]

/-- The returned trade sizes are exactly the pre-correction ones (in exact real
arithmetic the correction never fires). -/
lemma schedule_trades_eq_pre (m : AlmgrenChrissModel) (total_size time_horizon volatility : ℝ) :
    (m.calculate_optimal_execution_schedule total_size time_horizon volatility).2
      = schedule_pre m total_size time_horizon volatility := by
  unfold AlmgrenChrissModel.calculate_optimal_execution_schedule
  exact correction_of_exact total_size (schedule_pre_sum m total_size time_horizon volatility)

/-- The pre-correction list has one entry per slice. -/
lemma schedule_pre_length (m : AlmgrenChrissModel) (total_size time_horizon volatility : ℝ) :
    (schedule_pre m total_size time_horizon volatility).length = n_intervals time_horizon := by
  unfold schedule_pre
  by_cases ha : m.risk_aversion * volatility ^ 2 = 0
  · rw [if_pos ha, List.length_ofFn]
  · rw [if_neg ha, List.length_ofFn]

/-- `n_intervals 1 = 4`: one hour at four slices per hour. -/
lemma n_intervals_one : n_intervals 1 = 4 := by
  have h : ((1 : ℝ) * 4 : ℝ) = ((4 : ℤ) : ℝ) := by norm_num
  unfold n_intervals pytrunc
  rw [if_pos (by norm_num), h, Int.floor_intCast]
  decide

/-! ### Helper lemmas about the float64 schedule -/

/-- NaN on the left absorbs float addition. -/
lemma oadd_none (y : Option ℝ) : oadd none y = none := by cases y <;> rfl

/-- NaN on the right absorbs float addition. -/
lemma oadd_none_right (x : Option ℝ) : oadd x none = none := by cases x <;> rfl

/-- NaN on the right absorbs float subtraction. -/
lemma osub_none_right (x : Option ℝ) : osub x none = none := by cases x <;> rfl

/-- A NaN anywhere in the list makes the float sum NaN. -/
lemma osum_eq_none {l : List (Option ℝ)} (h : none ∈ l) : osum l = none := by
  induction l with
  | nil => simp at h
  | cons x t ih =>
      rcases List.mem_cons.mp h with h | hmem
      · rw [← h]
        show oadd none (osum t) = none
        exact oadd_none (osum t)
      · show oadd x (osum t) = none
        rw [ih hmem]
        exact oadd_none_right x

/-- The float sum of finite values is the real sum. -/
lemma osum_map_some (l : List ℝ) : osum (l.map some) = some l.sum := by
  induction l with
  | nil => rfl
  | cons x t ih =>
      show oadd (some x) (osum (t.map some)) = some (x :: t).sum
      rw [ih]
      show some (x + t.sum) = some (x :: t).sum
      rw [List.sum_cons]

/-- When the sinh denominator does not vanish, the float64 remaining inventory
is finite and equals the exact-arithmetic value. -/
lemma ra_remaining_float_eq (m : AlmgrenChrissModel) (total_size time_horizon volatility : ℝ)
    (hden : Real.sinh (Real.sqrt (m.risk_aversion * volatility ^ 2 *
      m.temporary_impact_factor) * time_horizon) ≠ 0) (i : ℕ) :
    ra_remaining_float m total_size time_horizon volatility i
      = some (ra_remaining m total_size time_horizon volatility i) := by
  unfold ra_remaining_float ra_remaining npdiv
  by_cases h0 : i = 0
  · rw [if_pos h0, if_pos h0]
  · rw [if_neg h0, if_neg h0, if_neg hden, Option.map_some']
    congr 1
    rw [mul_div_assoc]

/-- When the sinh denominator does not vanish, the float64 trade sizes are
finite and equal the exact-arithmetic ones. -/
lemma ra_trade_float_eq (m : AlmgrenChrissModel) (total_size time_horizon volatility : ℝ)
    (hden : Real.sinh (Real.sqrt (m.risk_aversion * volatility ^ 2 *
      m.temporary_impact_factor) * time_horizon) ≠ 0) (n i : ℕ) :
    ra_trade_float m total_size time_horizon volatility n i
      = some (ra_trade m total_size time_horizon volatility n i) := by
  unfold ra_trade_float ra_trade
  split_ifs with h
  · rw [ra_remaining_float_eq m total_size time_horizon volatility hden i,
      ra_remaining_float_eq m total_size time_horizon volatility hden (i + 1)]
    rfl
  · exact ra_remaining_float_eq m total_size time_horizon volatility hden (n - 1)

/-- Outside the NaN corner the float64 pre-correction trade sizes are the
exact-arithmetic ones. -/
lemma schedule_pre_float_eq (m : AlmgrenChrissModel)
    (total_size time_horizon volatility : ℝ)
    (hden : m.risk_aversion * volatility ^ 2 = 0
      ∨ Real.sinh (Real.sqrt (m.risk_aversion * volatility ^ 2 *
          m.temporary_impact_factor) * time_horizon) ≠ 0) :
    schedule_pre_float m total_size time_horizon volatility
      = (schedule_pre m total_size time_horizon volatility).map some := by
  unfold schedule_pre_float schedule_pre
  by_cases ha : m.risk_aversion * volatility ^ 2 = 0
  · rw [if_pos ha, if_pos ha, List.map_ofFn]
    rfl
  · rcases hden with h | h
    · exact absurd h ha
    · rw [if_neg ha, if_neg ha, List.map_ofFn]
      congr 1
      funext i
      exact ra_trade_float_eq m total_size time_horizon volatility h _ _

/-- Outside the NaN corner the float64 schedule returns exactly the
exact-arithmetic trade sizes (all finite; the correction is a no-op). -/
lemma schedule_float_trades (m : AlmgrenChrissModel)
    (total_size time_horizon volatility : ℝ)
    (hden : m.risk_aversion * volatility ^ 2 = 0
      ∨ Real.sinh (Real.sqrt (m.risk_aversion * volatility ^ 2 *
          m.temporary_impact_factor) * time_horizon) ≠ 0) :
    (calculate_optimal_execution_schedule_float m total_size time_horizon volatility).2
      = (schedule_pre m total_size time_horizon volatility).map some := by
  show apply_final_correction_float total_size
      (schedule_pre_float m total_size time_horizon volatility)
    = (schedule_pre m total_size time_horizon volatility).map some
  rw [schedule_pre_float_eq m total_size time_horizon volatility hden]
  unfold apply_final_correction_float
  rw [osum_map_some, schedule_pre_sum]
  exact if_neg (by rw [sub_self, abs_zero]; norm_num)

/-- `n_intervals 0 = 2`: a zero horizon still gets the minimum two slices. -/
lemma n_intervals_zero : n_intervals 0 = 2 := by
  have h : ((0 : ℝ) * 4 : ℝ) = ((0 : ℤ) : ℝ) := by norm_num
  unfold n_intervals pytrunc
  rw [if_pos (by norm_num), h, Int.floor_intCast]
  decide

/-! ## Claim C4 — conservation of the execution schedule -/

/-- C4 counterexample: at `(totalSize, timeHorizon, volatility) = (1, 0, 1)`
with the default model (`alpha = 0.001 > 0`), the source computes
`sinh_term = np.sinh(κ·0) = 0`, every remaining-inventory point after `t = 0`
is `0/0 = NaN`, the NaN-guarded correction never fires, and the returned trade
sizes sum to NaN — not to `totalSize = 1`.  The claim's universal
quantification over every `timeHorizon` is therefore false. -/
theorem claim_C4_counterexample :
    osum (calculate_optimal_execution_schedule_float defaultAC 1 0 1).2 = none
    ∧ (none : Option ℝ) ≠ some (1 : ℝ) := by
  have halpha : defaultAC.risk_aversion * (1 : ℝ) ^ 2 ≠ 0 := by
    rw [show defaultAC.risk_aversion = 0.001 from rfl]
    norm_num
  have hden0 : Real.sinh (Real.sqrt (defaultAC.risk_aversion * (1 : ℝ) ^ 2 *
      defaultAC.temporary_impact_factor) * 0) = 0 := by
    rw [mul_zero, Real.sinh_zero]
  have hnan : ∀ i : ℕ, i ≠ 0 → ra_remaining_float defaultAC 1 0 1 i = none := by
    intro i hi
    unfold ra_remaining_float npdiv
    rw [if_neg hi, if_pos hden0]
    rfl
  have hmem : (none : Option ℝ) ∈ schedule_pre_float defaultAC 1 0 1 := by
    unfold schedule_pre_float
    rw [if_neg halpha, List.mem_ofFn]
    have hlt : 1 < n_intervals 0 := by rw [n_intervals_zero]; norm_num
    refine ⟨⟨1, hlt⟩, ?_⟩
    show ra_trade_float defaultAC 1 0 1 (n_intervals 0) 1 = none
    unfold ra_trade_float
    rw [n_intervals_zero, if_neg (by norm_num)]
    exact hnan (2 - 1) (by norm_num)
  have hsum : osum (schedule_pre_float defaultAC 1 0 1) = none := osum_eq_none hmem
  refine ⟨?_, by simp⟩
  show osum (apply_final_correction_float 1 (schedule_pre_float defaultAC 1 0 1)) = none
  unfold apply_final_correction_float
  rw [hsum]
  exact hsum

/-- C4 amended: whenever the risk-averse denominator does not vanish — i.e.
`alpha = 0`, or `sinh(sqrt(alpha*gamma) * timeHorizon) ≠ 0`, which with the
default parameters is every `timeHorizon ≠ 0` — the float64 trade sizes are
finite and sum exactly to `totalSize` in both branches (any residual is added
only to the final slice, which the correction alone can touch); the schedule
always has `n = max(floor(timeHorizon * 4), 2)` slices at the evenly spaced
time points `timeHorizon * i / (n - 1)`.  At `timeHorizon = 0` in the
risk-averse branch the trade sizes are NaN and the sum is not `totalSize`
(see the counterexample). -/
theorem claim_C4_schedule_conservation (m : AlmgrenChrissModel)
    (total_size time_horizon volatility : ℝ)
    (hden : m.risk_aversion * volatility ^ 2 = 0
      ∨ Real.sinh (Real.sqrt (m.risk_aversion * volatility ^ 2 *
          m.temporary_impact_factor) * time_horizon) ≠ 0) :
    osum (calculate_optimal_execution_schedule_float m total_size time_horizon volatility).2
      = some total_size
    ∧ (calculate_optimal_execution_schedule_float m total_size time_horizon volatility).2.length
        = n_intervals time_horizon
    ∧ (calculate_optimal_execution_schedule_float m total_size time_horizon volatility).1.length
        = n_intervals time_horizon
    ∧ (n_intervals time_horizon : ℤ) = max ⌊time_horizon * 4⌋ 2
    ∧ (∀ i, i < n_intervals time_horizon →
        (calculate_optimal_execution_schedule_float m total_size time_horizon
          volatility).1.getD i 0
          = time_horizon * i / ((n_intervals time_horizon : ℝ) - 1))
    ∧ (∀ (t : ℝ) (pre : List (Option ℝ)) (i : ℕ), i ≠ pre.length - 1 →
        (apply_final_correction_float t pre).getD i none = pre.getD i none) := by
  have htr := schedule_float_trades m total_size time_horizon volatility hden
  refine ⟨?_, ?_, ?_, n_intervals_eq_max_floor time_horizon, ?_, ?_⟩
  · rw [htr, osum_map_some, schedule_pre_sum]
  · rw [htr, List.length_map]
    exact schedule_pre_length m total_size time_horizon volatility
  · show (List.ofFn fun j : Fin (n_intervals time_horizon) =>
      schedule_times time_horizon j).length = n_intervals time_horizon
    exact List.length_ofFn _
  · intro i hi
    show (List.ofFn fun j : Fin (n_intervals time_horizon) =>
      schedule_times time_horizon j).getD i 0 = _
    rw [getD_ofFn _ hi]
    rfl
  · intro t pre i hi
    unfold apply_final_correction_float
    cases hosum : osum pre with
    | none => rfl
    | some s =>
        show (if |s - t| > (1e-10 : ℝ) then
            pre.set (pre.length - 1)
              (oadd (pre.getD (pre.length - 1) (some 0)) (some (t - s)))
          else pre).getD i none = pre.getD i none
        split_ifs with hcond
        · rw [List.getD_eq_getElem?_getD, List.getElem?_set_ne (Ne.symm hi),
            ← List.getD_eq_getElem?_getD]
        · rfl

/-- Witness for C4: the theorem at `(defaultAC, totalSize = 5,
timeHorizon = 1, volatility = 0)` (the `alpha = 0` disjunct of the
hypothesis) with `i = 2`, and the correction-locality conjunct at
`(9, [some 1, some 2, some 3], i = 1)`. -/
theorem claim_C4_witness :
    (defaultAC.risk_aversion * (0 : ℝ) ^ 2 = 0
      ∧ 2 < n_intervals 1
      ∧ (1 : ℕ) ≠ ([some 1, some 2, some 3] : List (Option ℝ)).length - 1)
    ∧ osum (calculate_optimal_execution_schedule_float defaultAC 5 1 0).2 = some 5
    ∧ (calculate_optimal_execution_schedule_float defaultAC 5 1 0).1.getD 2 0
        = 1 * 2 / ((n_intervals 1 : ℝ) - 1)
    ∧ (apply_final_correction_float 9 [some 1, some 2, some 3]).getD 1 none
        = ([some 1, some 2, some 3] : List (Option ℝ)).getD 1 none := by
  have hden : defaultAC.risk_aversion * (0 : ℝ) ^ 2 = 0 := by ring
  have h2 : 2 < n_intervals 1 := by rw [n_intervals_one]; norm_num
  have hne : (1 : ℕ) ≠ ([some 1, some 2, some 3] : List (Option ℝ)).length - 1 := by norm_num
  have h := claim_C4_schedule_conservation defaultAC 5 1 0 (Or.inl hden)
  refine ⟨⟨hden, h2, hne⟩, h.1, ?_, h.2.2.2.2.2 9 [some 1, some 2, some 3] 1 hne⟩
  have := h.2.2.2.2.1 2 h2
  simpa using this

/-! ## Claim C2 — risk-averse trajectory -/

/-- C2 counterexample: with the default model at `(totalSize, timeHorizon,
volatility) = (1, 1, 1)` (so `alpha = 0.001 > 0`, `n = 4`), the LAST slice's
trade size is `0` — the remaining inventory at the LAST time point — whereas
the remaining inventory at the second-to-last time point (index 2) is strictly
positive; so the last trade is not set to the second-to-last remaining
inventory as claimed. -/
theorem claim_C2_counterexample :
    n_intervals 1 = 4
    ∧ (defaultAC.calculate_optimal_execution_schedule 1 1 1).2.getD 3 0 = 0
    ∧ 0 < ra_remaining defaultAC 1 1 1 2 := by
  have hra : defaultAC.risk_aversion = 0.001 := rfl
  have hti : defaultAC.temporary_impact_factor = 0.1 := rfl
  have halpha : defaultAC.risk_aversion * (1 : ℝ) ^ 2 ≠ 0 := by
    rw [hra]; norm_num
  refine ⟨n_intervals_one, ?_, ?_⟩
  · rw [schedule_trades_eq_pre]
    unfold schedule_pre
    rw [if_neg halpha, getD_ofFn _ (by rw [n_intervals_one]; norm_num : (3:ℕ) < n_intervals 1)]
    show ra_trade defaultAC 1 1 1 (n_intervals 1) 3 = 0
    unfold ra_trade
    rw [if_neg (by rw [n_intervals_one]; norm_num),
      show n_intervals 1 - 1 = 3 from by rw [n_intervals_one]]
    unfold ra_remaining
    rw [if_neg (by norm_num)]
    have ht : schedule_times 1 3 = 1 := by
      unfold schedule_times
      rw [n_intervals_one]
      norm_num
    rw [ht, sub_self, mul_zero, Real.sinh_zero, mul_zero, zero_div]
  · unfold ra_remaining
    rw [if_neg (by norm_num)]
    have ht : schedule_times 1 2 = 2 / 3 := by
      unfold schedule_times
      rw [n_intervals_one]
      norm_num
    rw [ht, hra, hti]
    have hk : 0 < Real.sqrt (0.001 * (1 : ℝ) ^ 2 * 0.1) := Real.sqrt_pos.mpr (by norm_num)
    have h23 : (1 : ℝ) - 2 / 3 = 1 / 3 := by norm_num
    have hnum : 0 < Real.sinh (Real.sqrt (0.001 * (1 : ℝ) ^ 2 * 0.1) * (1 - 2 / 3)) := by
      rw [h23]
      exact Real.sinh_pos_iff.mpr (mul_pos hk (by norm_num))
    have hden : 0 < Real.sinh (Real.sqrt (0.001 * (1 : ℝ) ^ 2 * 0.1) * 1) := by
      rw [mul_one]
      exact Real.sinh_pos_iff.mpr hk
    rw [one_mul]
    exact div_pos hnum hden

/-- C2 amended: in the risk-averse branch (`alpha > 0`) the remaining inventory
is `totalSize` at `t = 0` and follows the closed-form sinh trajectory at every
later time point; each non-final slice's trade size is the decrement of
remaining inventory between consecutive time points; and the LAST slice's trade
size equals the remaining inventory at the LAST time point (not the
second-to-last), which is exactly `0` — so terminal inventory is zero. -/
theorem claim_C2_risk_averse_trajectory (m : AlmgrenChrissModel)
    (total_size time_horizon volatility : ℝ)
    (halpha : 0 < m.risk_aversion * volatility ^ 2) :
    ra_remaining m total_size time_horizon volatility 0 = total_size
    ∧ (∀ i : ℕ, 1 ≤ i →
        ra_remaining m total_size time_horizon volatility i
          = total_size * Real.sinh (Real.sqrt (m.risk_aversion * volatility ^ 2 *
              m.temporary_impact_factor) * (time_horizon - schedule_times time_horizon i))
            / Real.sinh (Real.sqrt (m.risk_aversion * volatility ^ 2 *
              m.temporary_impact_factor) * time_horizon))
    ∧ (∀ i, i < n_intervals time_horizon - 1 →
        (m.calculate_optimal_execution_schedule total_size time_horizon volatility).2.getD i 0
          = ra_remaining m total_size time_horizon volatility i
            - ra_remaining m total_size time_horizon volatility (i + 1))
    ∧ (m.calculate_optimal_execution_schedule total_size time_horizon volatility).2.getD
        (n_intervals time_horizon - 1) 0
      = ra_remaining m total_size time_horizon volatility (n_intervals time_horizon - 1)
    ∧ ra_remaining m total_size time_horizon volatility (n_intervals time_horizon - 1) = 0 := by
  have hne : m.risk_aversion * volatility ^ 2 ≠ 0 := ne_of_gt halpha
  have hn2 := two_le_n_intervals time_horizon
  have hr_last : ra_remaining m total_size time_horizon volatility
      (n_intervals time_horizon - 1) = 0 := by
    unfold ra_remaining
    rw [if_neg (by omega)]
    have ht : schedule_times time_horizon (n_intervals time_horizon - 1) = time_horizon := by
      unfold schedule_times
      have hcast : ((n_intervals time_horizon - 1 : ℕ) : ℝ)
          = (n_intervals time_horizon : ℝ) - 1 := by
        rw [Nat.cast_sub (by omega)]
        norm_num
      have hpos : (n_intervals time_horizon : ℝ) - 1 ≠ 0 := by
        have h2 : (2 : ℝ) ≤ (n_intervals time_horizon : ℝ) := by exact_mod_cast hn2
        linarith
      rw [hcast, mul_div_assoc, div_self hpos, mul_one]
    rw [ht, sub_self, mul_zero, Real.sinh_zero, mul_zero, zero_div]
  refine ⟨by unfold ra_remaining; rw [if_pos rfl], ?_, ?_, ?_, hr_last⟩
  · intro i hi
    unfold ra_remaining
    rw [if_neg (by omega)]
  · intro i hi
    rw [schedule_trades_eq_pre]
    unfold schedule_pre
    rw [if_neg hne, getD_ofFn _ (by omega)]
    show ra_trade m total_size time_horizon volatility (n_intervals time_horizon) i = _
    unfold ra_trade
    rw [if_pos hi]
  · rw [schedule_trades_eq_pre]
    unfold schedule_pre
    rw [if_neg hne, getD_ofFn _ (by omega)]
    show ra_trade m total_size time_horizon volatility (n_intervals time_horizon)
      (n_intervals time_horizon - 1) = _
    unfold ra_trade
    rw [if_neg (by omega)]

/-- Witness for C2: the amended theorem at the concrete input
`(defaultAC, 1, 1, 1)`, whose `alpha = 0.001` is positive. -/
theorem claim_C2_witness :
    0 < defaultAC.risk_aversion * (1 : ℝ) ^ 2
    ∧ (ra_remaining defaultAC 1 1 1 0 = 1
      ∧ (∀ i : ℕ, 1 ≤ i →
          ra_remaining defaultAC 1 1 1 i
            = 1 * Real.sinh (Real.sqrt (defaultAC.risk_aversion * (1 : ℝ) ^ 2 *
                defaultAC.temporary_impact_factor) * (1 - schedule_times 1 i))
              / Real.sinh (Real.sqrt (defaultAC.risk_aversion * (1 : ℝ) ^ 2 *
                defaultAC.temporary_impact_factor) * 1))
      ∧ (∀ i, i < n_intervals 1 - 1 →
          (defaultAC.calculate_optimal_execution_schedule 1 1 1).2.getD i 0
            = ra_remaining defaultAC 1 1 1 i - ra_remaining defaultAC 1 1 1 (i + 1))
      ∧ (defaultAC.calculate_optimal_execution_schedule 1 1 1).2.getD (n_intervals 1 - 1) 0
          = ra_remaining defaultAC 1 1 1 (n_intervals 1 - 1)
      ∧ ra_remaining defaultAC 1 1 1 (n_intervals 1 - 1) = 0) := by
  have hpos : 0 < defaultAC.risk_aversion * (1 : ℝ) ^ 2 := by
    rw [show defaultAC.risk_aversion = 0.001 from rfl]
    norm_num
  exact ⟨hpos, claim_C2_risk_averse_trajectory defaultAC 1 1 1 hpos⟩

/-! ## Claim C6 — fallback behaviour of `get_fee_rate` -/

/-- C6 counterexample: after `add_exchange_fee_tiers('TEST', {})` installs an
exchange entry that lacks the `'spot'` fallback key, `get_fee_rate('TEST',
'spot', 'VIP0', maker)` hits a `KeyError` (modelled by `none`) instead of
returning a rate, so the deterministic-fallback guarantee does not extend to
fee tables installed later. -/
theorem claim_C6_counterexample :
    get_fee_rate (add_exchange_fee_tiers default_fee_tiers ("TEST") (.table []))
      ("TEST") ("spot") ("VIP0") true = none := rfl

/-- C6 amended: on the default fee table every combination of exchange, market
type and fee tier strings resolves to a rate, deterministically and without
raising, via the `'OKX'`/`'spot'`/`'VIP0'` fallbacks (shown both in general
and on a concrete unknown triple); the guarantee does not extend to exchange
entries installed later via `add_exchange_fee_tiers` unless they themselves
contain the fallback keys. -/
theorem claim_C6_default_fallback (exchange market_type fee_tier : String) (is_maker : Bool) :
    (∃ r, get_fee_rate default_fee_tiers exchange market_type fee_tier is_maker = some r)
    ∧ get_fee_rate default_fee_tiers ("BINANCE") ("margin") ("VIP9") is_maker
      = get_fee_rate default_fee_tiers ("OKX") ("spot") ("VIP0") is_maker := by
  refine ⟨default_get_fee_rate_total exchange market_type fee_tier is_maker, ?_⟩
  cases is_maker <;> rfl

/-! ## Claim C7 — `calculate_fee` arithmetic -/

/-- C7 counterexample: for `order_value = -1` the claimed identity
`effective_rate = total_fee / order_value` fails: the code's guard is
`order_value > 0`, so a negative order value yields `effective_rate = 0`
while `total_fee / order_value = 0.00125 ≠ 0`. -/
theorem claim_C7_counterexample :
    (calculate_fee default_fee_tiers (-1) ("OKX") ("spot") ("VIP0") 0.5).map
      (fun fr => (fr.effective_rate, fr.total_fee / (-1 : ℝ))) = some (0, 0.00125)
    ∧ (0 : ℝ) ≠ 0.00125 := by
  constructor
  · have hmr : get_fee_rate default_fee_tiers ("OKX") ("spot") ("VIP0") true
        = some 0.0010 := rfl
    have htr : get_fee_rate default_fee_tiers ("OKX") ("spot") ("VIP0") false
        = some 0.0015 := rfl
    rw [calculate_fee, hmr, htr]
    simp only [Option.map_some]
    norm_num
  · norm_num

/-- C7 amended: whenever the maker and taker rates resolve, `calculate_fee`
splits `order_value` by `maker_proportion` / `1 - maker_proportion`, applies
the two rates, returns `total_fee = maker_fee + taker_fee`, and returns
`effective_rate = total_fee / order_value` when `order_value > 0` and `0`
otherwise (in particular `0` when `order_value = 0`). -/
theorem claim_C7_fee_split (fee_tiers : List (String × FeeVal))
    (order_value maker_proportion mr tr : ℝ) (exchange market_type fee_tier : String)
    (hm : get_fee_rate fee_tiers exchange market_type fee_tier true = some mr)
    (ht : get_fee_rate fee_tiers exchange market_type fee_tier false = some tr) :
    ∃ fr, calculate_fee fee_tiers order_value exchange market_type fee_tier maker_proportion
        = some fr
      ∧ fr.maker_fee = order_value * maker_proportion * mr
      ∧ fr.taker_fee = order_value * (1 - maker_proportion) * tr
      ∧ fr.total_fee = fr.maker_fee + fr.taker_fee
      ∧ fr.effective_rate = (if order_value > 0 then fr.total_fee / order_value else 0) := by
  refine ⟨_, by rw [calculate_fee, hm, ht], rfl, rfl, rfl, rfl⟩

/-- Witness for C7: the amended theorem applied on the default table at
`order_value = 2`, `maker_proportion = 0.3`. -/
theorem claim_C7_witness :
    (get_fee_rate default_fee_tiers ("OKX") ("spot") ("VIP0") true = some 0.0010
      ∧ get_fee_rate default_fee_tiers ("OKX") ("spot") ("VIP0") false = some 0.0015)
    ∧ ∃ fr, calculate_fee default_fee_tiers 2 ("OKX") ("spot") ("VIP0") 0.3 = some fr
      ∧ fr.maker_fee = 2 * 0.3 * 0.0010
      ∧ fr.taker_fee = 2 * (1 - 0.3) * 0.0015
      ∧ fr.total_fee = fr.maker_fee + fr.taker_fee
      ∧ fr.effective_rate = (if (2 : ℝ) > 0 then fr.total_fee / 2 else 0) :=
  ⟨⟨rfl, rfl⟩,
    claim_C7_fee_split default_fee_tiers 2 0.3 0.0010 0.0015 ("OKX") ("spot") ("VIP0") rfl rfl⟩


/-! ## Claim C8 — `update` sorts, truncates, and replaces -/

/-- C8: after every `update`, regardless of the arrival order of the snapshot
levels, the stored asks are non-decreasing and the stored bids non-increasing
by price, each side holds at most `max_depth` entries, and the new book is a
function of the snapshot alone (the previous `asks`/`bids` are wholly
replaced). -/
theorem claim_C8_update_sorted (ob : Orderbook) (asks bids : List (ℝ × ℝ)) :
    (ob.update asks bids).asks.Pairwise (fun a b => a.1 ≤ b.1)
    ∧ (ob.update asks bids).bids.Pairwise (fun a b => b.1 ≤ a.1)
    ∧ (ob.update asks bids).asks.length ≤ ob.max_depth
    ∧ (ob.update asks bids).bids.length ≤ ob.max_depth
    ∧ (∀ asks0 bids0 : List (ℝ × ℝ),
        (Orderbook.update { max_depth := ob.max_depth, asks := asks0, bids := bids0 }
            asks bids).asks = (ob.update asks bids).asks
        ∧ (Orderbook.update { max_depth := ob.max_depth, asks := asks0, bids := bids0 }
            asks bids).bids = (ob.update asks bids).bids) := by
  have hsorted_a : (asks.mergeSort (fun a b => decide (a.1 ≤ b.1))).Pairwise
      (fun a b => a.1 ≤ b.1) := by
    have h := @List.sorted_mergeSort (ℝ × ℝ) (fun a b => decide (a.1 ≤ b.1))
      (fun a b c hab hbc => by
        simp only [decide_eq_true_eq] at *
        exact le_trans hab hbc)
      (fun a b => by
        simp only [Bool.or_eq_true, decide_eq_true_eq]
        exact le_total a.1 b.1) asks
    exact h.imp (fun hab => of_decide_eq_true hab)
  have hsorted_b : (bids.mergeSort (fun a b => decide (b.1 ≤ a.1))).Pairwise
      (fun a b => b.1 ≤ a.1) := by
    have h := @List.sorted_mergeSort (ℝ × ℝ) (fun a b => decide (b.1 ≤ a.1))
      (fun a b c hab hbc => by
        simp only [decide_eq_true_eq] at *
        exact le_trans hbc hab)
      (fun a b => by
        simp only [Bool.or_eq_true, decide_eq_true_eq]
        exact le_total b.1 a.1) bids
    exact h.imp (fun hab => of_decide_eq_true hab)
  refine ⟨?_, ?_, ?_, ?_, fun asks0 bids0 => ⟨rfl, rfl⟩⟩
  · exact List.Pairwise.sublist (List.take_sublist _ _) hsorted_a
  · exact List.Pairwise.sublist (List.take_sublist _ _) hsorted_b
  · exact List.length_take_le _ _
  · exact List.length_take_le _ _

/-! ## Claim C9 — order-book imbalance -/

/-- C9: the imbalance is absent when either side is empty; on a non-empty book
with non-negative level quantities it equals `(B - A) / (B + A)` guarded by the
`B + A = 0` zero case, lies in `[-1, 1]`, and is `0` when both volumes are `0`. -/
theorem claim_C9_imbalance (ob : Orderbook)
    (hq_bids : ∀ pq ∈ ob.bids, 0 ≤ pq.2) (hq_asks : ∀ pq ∈ ob.asks, 0 ≤ pq.2) :
    ((ob.asks = [] ∨ ob.bids = []) → ob.get_orderbook_imbalance = none)
    ∧ (ob.asks ≠ [] → ob.bids ≠ [] →
        ∃ r, ob.get_orderbook_imbalance = some r
          ∧ r = (if (ob.bids.map Prod.snd).sum + (ob.asks.map Prod.snd).sum = 0 then 0
              else ((ob.bids.map Prod.snd).sum - (ob.asks.map Prod.snd).sum)
                / ((ob.bids.map Prod.snd).sum + (ob.asks.map Prod.snd).sum))
          ∧ -1 ≤ r ∧ r ≤ 1
          ∧ (((ob.bids.map Prod.snd).sum = 0 ∧ (ob.asks.map Prod.snd).sum = 0) → r = 0)) := by
  obtain ⟨md, asksL, bidsL⟩ := ob
  have hB : 0 ≤ (bidsL.map Prod.snd).sum :=
    List.sum_nonneg (by
      intro x hx
      obtain ⟨pq, hpq, rfl⟩ := List.mem_map.mp hx
      exact hq_bids pq hpq)
  have hA : 0 ≤ (asksL.map Prod.snd).sum :=
    List.sum_nonneg (by
      intro x hx
      obtain ⟨pq, hpq, rfl⟩ := List.mem_map.mp hx
      exact hq_asks pq hpq)
  constructor
  · rintro (h | h) <;> subst h
    · rfl
    · cases asksL with
      | nil => rfl
      | cons a as => rfl
  · intro ha hb
    cases asksL with
    | nil => exact absurd rfl ha
    | cons a as =>
      cases bidsL with
      | nil => exact absurd rfl hb
      | cons b bs =>
        by_cases h0 : ((b :: bs).map Prod.snd).sum + ((a :: as).map Prod.snd).sum = 0
        · refine ⟨0, ?_, by rw [if_pos h0], by norm_num, by norm_num, fun _ => rfl⟩
          unfold Orderbook.get_orderbook_imbalance
          exact if_pos h0
        · have hpos : 0 < ((b :: bs).map Prod.snd).sum + ((a :: as).map Prod.snd).sum :=
            lt_of_le_of_ne (by positivity) (Ne.symm h0)
          refine ⟨_, ?_, by rw [if_neg h0], ?_, ?_, ?_⟩
          · unfold Orderbook.get_orderbook_imbalance
            exact if_neg h0
          · rw [le_div_iff₀ hpos]
            linarith
          · rw [div_le_one hpos]
            linarith
          · rintro ⟨hb0, ha0⟩
            exact absurd (by rw [hb0, ha0, add_zero]) h0

/-- Witness for C9: the theorem applied to the concrete non-empty `testBook`. -/
theorem claim_C9_witness :
    ((∀ pq ∈ testBook.bids, 0 ≤ pq.2) ∧ (∀ pq ∈ testBook.asks, 0 ≤ pq.2)
      ∧ testBook.asks ≠ [] ∧ testBook.bids ≠ [])
    ∧ ∃ r, testBook.get_orderbook_imbalance = some r
        ∧ r = (if (testBook.bids.map Prod.snd).sum + (testBook.asks.map Prod.snd).sum = 0 then 0
            else ((testBook.bids.map Prod.snd).sum - (testBook.asks.map Prod.snd).sum)
              / ((testBook.bids.map Prod.snd).sum + (testBook.asks.map Prod.snd).sum))
        ∧ -1 ≤ r ∧ r ≤ 1
        ∧ (((testBook.bids.map Prod.snd).sum = 0 ∧ (testBook.asks.map Prod.snd).sum = 0) → r = 0) := by
  have hqb : ∀ pq ∈ testBook.bids, (0 : ℝ) ≤ pq.2 := by
    intro pq h
    simp only [testBook, List.mem_cons, List.not_mem_nil, or_false] at h
    subst h
    norm_num
  have hqa : ∀ pq ∈ testBook.asks, (0 : ℝ) ≤ pq.2 := by
    intro pq h
    simp only [testBook, List.mem_cons, List.not_mem_nil, or_false] at h
    subst h
    norm_num
  have ha : testBook.asks ≠ [] := by simp [testBook]
  have hb : testBook.bids ≠ [] := by simp [testBook]
  exact ⟨⟨hqb, hqa, ha, hb⟩, (claim_C9_imbalance testBook hqb hqa).2 ha hb⟩


/-! ## Claims C1 and C10 — `simulate_market_order` error behaviour -/

/-- On a book with both sides non-empty, all three derived metrics are present. -/
lemma metrics_isSome (ob : Orderbook) (ha : ob.asks ≠ []) (hb : ob.bids ≠ []) :
    ob.get_mid_price.isSome ∧ ob.get_spread.isSome ∧ ob.get_orderbook_imbalance.isSome := by
  obtain ⟨md, asksL, bidsL⟩ := ob
  cases asksL with
  | nil => exact absurd rfl ha
  | cons a as =>
    cases bidsL with
    | nil => exact absurd rfl hb
    | cons b bs =>
      obtain ⟨pa, qa⟩ := a
      obtain ⟨pb, qb⟩ := b
      refine ⟨rfl, rfl, ?_⟩
      unfold Orderbook.get_orderbook_imbalance
      dsimp only
      split_ifs <;> rfl

/-- The exhaustive case analysis of `simulate_market_order`: an empty side
yields the `EmptyOrderBook` error; otherwise a complete `CostEstimate` is
returned — for EVERY quantity, `0` included, since the execution-price
division is total.  The `InvalidMetrics` and `KeyError` outcomes never occur. -/
lemma simulate_dichotomy (book : Orderbook) (side : String) (quantity : ℝ)
    (exchange market_type fee_tier : String) (volatility : ℝ) :
    ((book.asks = [] ∨ book.bids = [])
      ∧ simulate_market_order book side quantity exchange market_type fee_tier volatility
        = .error .emptyOrderbook)
    ∨ (book.asks ≠ [] ∧ book.bids ≠ []
      ∧ ∃ est, simulate_market_order book side quantity exchange market_type fee_tier volatility
        = .ok est) := by
  obtain ⟨md, asksL, bidsL⟩ := book
  cases asksL with
  | nil => exact Or.inl ⟨Or.inl rfl, rfl⟩
  | cons a as =>
    cases bidsL with
    | nil => exact Or.inl ⟨Or.inr rfl, rfl⟩
    | cons b bs =>
      obtain ⟨pa, qa⟩ := a
      obtain ⟨pb, qb⟩ := b
      obtain ⟨imb, himb⟩ : ∃ r,
          Orderbook.get_orderbook_imbalance ⟨md, (pa, qa) :: as, (pb, qb) :: bs⟩ = some r := by
        unfold Orderbook.get_orderbook_imbalance
        dsimp only
        split_ifs <;> exact ⟨_, rfl⟩
      obtain ⟨fr, hfr⟩ := default_calculate_fee_total (quantity * ((pa + pb) / 2))
        exchange market_type fee_tier
        (estimate_maker_proportion_fallback quantity (pa - pb) volatility imb)
      refine Or.inr ⟨by simp, by simp, ?_⟩
      unfold simulate_market_order
      simp only [List.isEmpty_cons, Bool.or_self, Bool.false_eq_true, if_false,
        Orderbook.get_mid_price, Orderbook.get_spread, himb, hfr]
      exact ⟨_, rfl⟩

/-- C1: for every call, the caller receives either a complete `CostEstimate`
or the `EmptyOrderBook`-tagged error, and nothing else — no `InvalidMetrics`,
no `KeyError`, and no uncaught exception; `EmptyOrderBook` is returned if and
only if a side of the book is empty; and this holds for EVERY quantity,
including `quantity = 0`, where the execution-price step divides the NumPy
`float64` numerator `slippage + temporary_impact` by `quantity` and obtains a
non-finite value rather than raising. -/
theorem claim_C1_complete_or_tagged_error (book : Orderbook) (side : String) (quantity : ℝ)
    (exchange market_type fee_tier : String) (volatility : ℝ) :
    (simulate_market_order book side quantity exchange market_type fee_tier volatility
        = .error .emptyOrderbook ↔ (book.asks = [] ∨ book.bids = []))
    ∧ (book.asks ≠ [] → book.bids ≠ [] →
        ∃ est, simulate_market_order book side quantity exchange market_type fee_tier volatility
          = .ok est)
    ∧ (∀ e, simulate_market_order book side quantity exchange market_type fee_tier volatility
        = .error e → e = .emptyOrderbook) := by
  rcases simulate_dichotomy book side quantity exchange market_type fee_tier volatility with
    ⟨hcase, heq⟩ | ⟨ha, hb, hsome⟩
  · refine ⟨⟨fun _ => hcase, fun _ => heq⟩, fun ha hb => ?_, fun e he => ?_⟩
    · rcases hcase with h | h
      · exact absurd h ha
      · exact absurd h hb
    · rw [heq] at he
      exact (Except.error.inj he).symm
  · obtain ⟨est, hest⟩ := hsome
    refine ⟨⟨?_, ?_⟩, fun _ _ => ⟨est, hest⟩, fun e he => ?_⟩
    · intro h
      rw [hest] at h
      exact Except.noConfusion h
    · rintro (h | h)
      · exact absurd h ha
      · exact absurd h hb
    · rw [hest] at he
      exact Except.noConfusion he

/-- Witness for C1: the theorem at the non-empty `testBook` with the edge
quantity `0` — a complete estimate is still returned. -/
theorem claim_C1_witness :
    (testBook.asks ≠ [] ∧ testBook.bids ≠ [])
    ∧ (simulate_market_order testBook ("buy") 0 ("OKX") ("spot") ("VIP0") 0.01
        = .error .emptyOrderbook ↔ (testBook.asks = [] ∨ testBook.bids = []))
    ∧ ∃ est, simulate_market_order testBook ("buy") 0 ("OKX") ("spot") ("VIP0") 0.01
        = .ok est := by
  have h := claim_C1_complete_or_tagged_error testBook ("buy") 0 ("OKX") ("spot") ("VIP0") 0.01
  exact ⟨⟨by simp [testBook], by simp [testBook]⟩, h.1,
    h.2.1 (by simp [testBook]) (by simp [testBook])⟩

/-- C10: whenever both book sides are non-empty all three derived metrics are
present, so the defensive `InvalidMetrics` branch of `simulate_market_order`
is unreachable: no input whatsoever produces the `InvalidMetrics` error. -/
theorem claim_C10_invalid_metrics_unreachable :
    (∀ ob : Orderbook, ob.asks ≠ [] → ob.bids ≠ [] →
      ob.get_mid_price.isSome ∧ ob.get_spread.isSome ∧ ob.get_orderbook_imbalance.isSome)
    ∧ ∀ (book : Orderbook) (side : String) (quantity : ℝ)
        (exchange market_type fee_tier : String) (volatility : ℝ),
        simulate_market_order book side quantity exchange market_type fee_tier volatility
          ≠ Except.error SimError.invalidMetrics := by
  refine ⟨metrics_isSome, ?_⟩
  intro book side quantity exchange market_type fee_tier volatility
  rcases simulate_dichotomy book side quantity exchange market_type fee_tier volatility with
    ⟨_, heq⟩ | ⟨_, _, ⟨est, heq⟩⟩ <;> rw [heq] <;> intro hcontra
  · exact SimError.noConfusion (Except.error.inj hcontra)
  · exact Except.noConfusion hcontra

/-- Witness for C10: the metrics part at the non-empty `testBook`, and the
unreachability part at one concrete call. -/
theorem claim_C10_witness :
    (testBook.asks ≠ [] ∧ testBook.bids ≠ [])
    ∧ (testBook.get_mid_price.isSome ∧ testBook.get_spread.isSome
        ∧ testBook.get_orderbook_imbalance.isSome)
    ∧ simulate_market_order testBook ("buy") 2 ("OKX") ("spot") ("VIP0") 0.01
        ≠ Except.error SimError.invalidMetrics :=
  ⟨⟨by simp [testBook], by simp [testBook]⟩,
    claim_C10_invalid_metrics_unreachable.1 testBook (by simp [testBook]) (by simp [testBook]),
    claim_C10_invalid_metrics_unreachable.2 testBook ("buy") 2 ("OKX") ("spot") ("VIP0") 0.01⟩


/-! ## Claim C5 — `get_price_for_volume` vs `get_volume_up_to_price` -/

/-- The price returned by the level walk is the price of some level. -/
lemma price_for_vol_mem (v : ℝ) (l : List (ℝ × ℝ)) (p : ℝ)
    (h : price_for_vol v l = some p) : ∃ q, (p, q) ∈ l := by
  induction l generalizing v with
  | nil => simp [price_for_vol] at h
  | cons hd tl ih =>
    obtain ⟨p0, q0⟩ := hd
    rw [price_for_vol] at h
    by_cases h0 : v - q0 ≤ 0
    · rw [if_pos h0] at h
      obtain rfl : p0 = p := by injection h
      exact ⟨q0, List.mem_cons_self _ _⟩
    · rw [if_neg h0] at h
      obtain ⟨q, hq⟩ := ih (v - q0) h
      exact ⟨q, List.mem_cons_of_mem _ hq⟩

/-- Cumulative ask-side volume is non-negative when all quantities are. -/
lemma cum_vol_le_nonneg (price : ℝ) (l : List (ℝ × ℝ)) (hq : ∀ pq ∈ l, 0 ≤ pq.2) :
    0 ≤ cum_vol_le price l := by
  induction l with
  | nil => exact le_refl 0
  | cons hd tl ih =>
    obtain ⟨p0, q0⟩ := hd
    rw [cum_vol_le]
    split_ifs
    · have h0 : (0 : ℝ) ≤ q0 := hq (p0, q0) (List.mem_cons_self _ _)
      have htl := ih (fun pq hpq => hq pq (List.mem_cons_of_mem _ hpq))
      linarith
    · exact le_refl 0

/-- Cumulative bid-side volume is non-negative when all quantities are. -/
lemma cum_vol_ge_nonneg (price : ℝ) (l : List (ℝ × ℝ)) (hq : ∀ pq ∈ l, 0 ≤ pq.2) :
    0 ≤ cum_vol_ge price l := by
  induction l with
  | nil => exact le_refl 0
  | cons hd tl ih =>
    obtain ⟨p0, q0⟩ := hd
    rw [cum_vol_ge]
    split_ifs
    · have h0 : (0 : ℝ) ≤ q0 := hq (p0, q0) (List.mem_cons_self _ _)
      have htl := ih (fun pq hpq => hq pq (List.mem_cons_of_mem _ hpq))
      linarith
    · exact le_refl 0

/-- The level walk returns the price of the FIRST level at which the running
cumulative consumed volume reaches or exceeds the requested volume.  This holds
for any list, no sortedness or sign condition needed. -/
lemma price_for_vol_first_index (v : ℝ) (l : List (ℝ × ℝ)) (p : ℝ)
    (h : price_for_vol v l = some p) :
    ∃ i, i < l.length ∧ p = (l.getD i (0, 0)).1
      ∧ v ≤ ((l.take (i + 1)).map Prod.snd).sum
      ∧ ∀ j < i, ((l.take (j + 1)).map Prod.snd).sum < v := by
  induction l generalizing v with
  | nil => simp [price_for_vol] at h
  | cons hd tl ih =>
    obtain ⟨p0, q0⟩ := hd
    rw [price_for_vol] at h
    by_cases h0 : v - q0 ≤ 0
    · rw [if_pos h0] at h
      obtain rfl : p0 = p := by injection h
      refine ⟨0, by simp, rfl, by simp; linarith, fun j hj => absurd hj (Nat.not_lt_zero j)⟩
    · rw [if_neg h0] at h
      obtain ⟨i, hi, hp, hcum, hmin⟩ := ih (v - q0) h
      refine ⟨i + 1, by simpa using hi, by simpa using hp, ?_, ?_⟩
      · rw [List.take_succ_cons, List.map_cons, List.sum_cons]
        linarith
      · intro j hj
        cases j with
        | zero =>
            simp only [List.take_succ_cons, List.take_zero, List.map_cons, List.map_nil,
              List.sum_cons, List.sum_nil, add_zero]
            linarith
        | succ j =>
            rw [List.take_succ_cons, List.map_cons, List.sum_cons]
            have := hmin j (by omega)
            linarith

/-- Ask side: the returned price consumes at least `v` of cumulative depth, and
every strictly cheaper level price has cumulative depth strictly below `v`
(sorted ascending, non-negative quantities). -/
lemma price_for_vol_cum_le (l : List (ℝ × ℝ))
    (hsort : l.Pairwise (fun a b => a.1 ≤ b.1)) (hq : ∀ pq ∈ l, 0 ≤ pq.2)
    (v p : ℝ) (h : price_for_vol v l = some p) :
    v ≤ cum_vol_le p l ∧ ∀ pq ∈ l, pq.1 < p → cum_vol_le pq.1 l < v := by
  induction l generalizing v with
  | nil => simp [price_for_vol] at h
  | cons hd tl ih =>
    obtain ⟨p0, q0⟩ := hd
    rw [List.pairwise_cons] at hsort
    obtain ⟨hhead, htail⟩ := hsort
    have hq0 : (0 : ℝ) ≤ q0 := hq (p0, q0) (List.mem_cons_self _ _)
    have hqtl : ∀ pq ∈ tl, (0 : ℝ) ≤ pq.2 := fun pq hpq => hq pq (List.mem_cons_of_mem _ hpq)
    rw [price_for_vol] at h
    by_cases h0 : v - q0 ≤ 0
    · rw [if_pos h0] at h
      obtain rfl : p0 = p := by injection h
      constructor
      · rw [cum_vol_le, if_pos le_rfl]
        have := cum_vol_le_nonneg p0 tl hqtl
        linarith
      · intro pq hpq hlt
        rcases List.mem_cons.mp hpq with rfl | hmem
        · exact absurd hlt (lt_irrefl _)
        · exact absurd hlt (not_lt.mpr (hhead pq hmem))
    · rw [if_neg h0] at h
      obtain ⟨hcum, hmin⟩ := ih htail hqtl (v - q0) h
      have hp0p : p0 ≤ p := by
        obtain ⟨q, hmem⟩ := price_for_vol_mem (v - q0) tl p h
        exact hhead (p, q) hmem
      constructor
      · rw [cum_vol_le, if_pos hp0p]
        linarith
      · intro pq hpq hlt
        rcases List.mem_cons.mp hpq with rfl | hmem
        · rw [cum_vol_le, if_pos le_rfl]
          cases tl with
          | nil =>
              rw [cum_vol_le]
              linarith
          | cons u us =>
              by_cases hu : u.1 ≤ p0
              · have hu0 : u.1 = p0 := le_antisymm hu (hhead u (List.mem_cons_self _ _))
                have hx := hmin u (List.mem_cons_self _ _) (by rw [hu0]; exact hlt)
                rw [hu0] at hx
                linarith
              · obtain ⟨u1, u2⟩ := u
                rw [cum_vol_le, if_neg hu]
                linarith
        · rw [cum_vol_le, if_pos (hhead pq hmem)]
          have := hmin pq hmem hlt
          linarith

/-- Bid side: mirror image of `price_for_vol_cum_le` (sorted descending,
non-negative quantities, looking at strictly higher prices). -/
lemma price_for_vol_cum_ge (l : List (ℝ × ℝ))
    (hsort : l.Pairwise (fun a b => b.1 ≤ a.1)) (hq : ∀ pq ∈ l, 0 ≤ pq.2)
    (v p : ℝ) (h : price_for_vol v l = some p) :
    v ≤ cum_vol_ge p l ∧ ∀ pq ∈ l, p < pq.1 → cum_vol_ge pq.1 l < v := by
  induction l generalizing v with
  | nil => simp [price_for_vol] at h
  | cons hd tl ih =>
    obtain ⟨p0, q0⟩ := hd
    rw [List.pairwise_cons] at hsort
    obtain ⟨hhead, htail⟩ := hsort
    have hq0 : (0 : ℝ) ≤ q0 := hq (p0, q0) (List.mem_cons_self _ _)
    have hqtl : ∀ pq ∈ tl, (0 : ℝ) ≤ pq.2 := fun pq hpq => hq pq (List.mem_cons_of_mem _ hpq)
    rw [price_for_vol] at h
    by_cases h0 : v - q0 ≤ 0
    · rw [if_pos h0] at h
      obtain rfl : p0 = p := by injection h
      constructor
      · rw [cum_vol_ge, if_pos le_rfl]
        have := cum_vol_ge_nonneg p0 tl hqtl
        linarith
      · intro pq hpq hlt
        rcases List.mem_cons.mp hpq with rfl | hmem
        · exact absurd hlt (lt_irrefl _)
        · exact absurd hlt (not_lt.mpr (hhead pq hmem))
    · rw [if_neg h0] at h
      obtain ⟨hcum, hmin⟩ := ih htail hqtl (v - q0) h
      have hp0p : p ≤ p0 := by
        obtain ⟨q, hmem⟩ := price_for_vol_mem (v - q0) tl p h
        exact hhead (p, q) hmem
      constructor
      · rw [cum_vol_ge, if_pos hp0p]
        linarith
      · intro pq hpq hlt
        rcases List.mem_cons.mp hpq with rfl | hmem
        · rw [cum_vol_ge, if_pos le_rfl]
          cases tl with
          | nil =>
              rw [cum_vol_ge]
              linarith
          | cons u us =>
              by_cases hu : p0 ≤ u.1
              · have hu0 : u.1 = p0 := le_antisymm (hhead u (List.mem_cons_self _ _)) hu
                have hx := hmin u (List.mem_cons_self _ _) (by rw [hu0]; exact hlt)
                rw [hu0] at hx
                linarith
              · obtain ⟨u1, u2⟩ := u
                rw [cum_vol_ge, if_neg hu]
                linarith
        · rw [cum_vol_ge, if_pos (hhead pq hmem)]
          have := hmin pq hmem hlt
          linarith

/-- A positive volume within the side's total depth is always matched. -/
lemma price_for_vol_isSome (v : ℝ) (l : List (ℝ × ℝ)) (hv : 0 < v)
    (h : v ≤ (l.map Prod.snd).sum) : ∃ p, price_for_vol v l = some p := by
  induction l generalizing v with
  | nil =>
      simp only [List.map_nil, List.sum_nil] at h
      linarith
  | cons hd tl ih =>
    obtain ⟨p0, q0⟩ := hd
    rw [price_for_vol]
    by_cases h0 : v - q0 ≤ 0
    · exact ⟨p0, if_pos h0⟩
    · rw [if_neg h0]
      refine ih (v - q0) (by linarith) ?_
      simp only [List.map_cons, List.sum_cons] at h
      linarith

/-- A volume exceeding the side's total depth is never matched (non-negative
quantities). -/
lemma price_for_vol_none (v : ℝ) (l : List (ℝ × ℝ)) (hq : ∀ pq ∈ l, 0 ≤ pq.2)
    (h : (l.map Prod.snd).sum < v) : price_for_vol v l = none := by
  induction l generalizing v with
  | nil => rfl
  | cons hd tl ih =>
    obtain ⟨p0, q0⟩ := hd
    have hq0 : (0 : ℝ) ≤ q0 := hq (p0, q0) (List.mem_cons_self _ _)
    have hqtl : ∀ pq ∈ tl, (0 : ℝ) ≤ pq.2 := fun pq hpq => hq pq (List.mem_cons_of_mem _ hpq)
    have hsum : 0 ≤ (tl.map Prod.snd).sum :=
      List.sum_nonneg (by
        intro x hx
        obtain ⟨pq, hpq, rfl⟩ := List.mem_map.mp hx
        exact hqtl pq hpq)
    simp only [List.map_cons, List.sum_cons] at h
    rw [price_for_vol, if_neg (by linarith)]
    exact ih (v - q0) hqtl (by linarith)

/-- The ask-side method dispatch. -/
lemma gpfv_ask (ob : Orderbook) (v : ℝ) :
    ob.get_price_for_volume ("ask") v = price_for_vol v ob.asks := by
  unfold Orderbook.get_price_for_volume
  rw [if_pos (by decide)]

/-- The bid-side method dispatch. -/
lemma gpfv_bid (ob : Orderbook) (v : ℝ) :
    ob.get_price_for_volume ("bid") v = price_for_vol v ob.bids := by
  unfold Orderbook.get_price_for_volume
  rw [if_neg (by decide), if_pos (by decide)]

/-- The ask-side cumulative-volume dispatch. -/
lemma gvutp_ask (ob : Orderbook) (price : ℝ) :
    ob.get_volume_up_to_price ("ask") price = cum_vol_le price ob.asks := by
  unfold Orderbook.get_volume_up_to_price
  rw [if_pos (by decide)]

/-- The bid-side cumulative-volume dispatch. -/
lemma gvutp_bid (ob : Orderbook) (price : ℝ) :
    ob.get_volume_up_to_price ("bid") price = cum_vol_ge price ob.bids := by
  unfold Orderbook.get_volume_up_to_price
  rw [if_neg (by decide), if_pos (by decide)]

/-- A sorted ask list with one negative-quantity duplicate level: a legal
counterexample book for C5 as literally stated. -/
noncomputable def badBook : Orderbook := { max_depth := 50, asks := [(1, 5), (1, -5), (2, 10)], bids := [] }

/-- C5 counterexample: `badBook.asks` is sorted ascending and the requested
volume `3` is within the total depth (`10`), yet the returned price `1`
satisfies `get_volume_up_to_price('ask', 1) = 0 < 3`; the first price at which
the cumulative volume reaches `3` is `2`, not the returned price.  The claim
as stated (quantified over all sorted books, with no sign condition on
quantities) is therefore false. -/
theorem claim_C5_counterexample :
    badBook.asks.Pairwise (fun a b => a.1 ≤ b.1)
    ∧ (3 : ℝ) ≤ (badBook.asks.map Prod.snd).sum
    ∧ badBook.get_price_for_volume ("ask") 3 = some 1
    ∧ badBook.get_volume_up_to_price ("ask") 1 < 3
    ∧ 3 ≤ badBook.get_volume_up_to_price ("ask") 2 := by
  refine ⟨?_, ?_, ?_, ?_, ?_⟩
  · simp only [badBook, List.pairwise_cons, List.mem_cons, List.not_mem_nil, or_false,
      List.Pairwise.nil, and_true]
    norm_num
  · simp only [badBook, List.map_cons, List.map_nil, List.sum_cons, List.sum_nil]
    norm_num
  · rw [gpfv_ask]
    show price_for_vol 3 [(1, 5), (1, -5), (2, 10)] = some 1
    rw [price_for_vol, if_pos (by norm_num)]
  · rw [gvutp_ask]
    show cum_vol_le 1 [(1, 5), (1, -5), (2, 10)] < 3
    rw [cum_vol_le, if_pos (by norm_num), cum_vol_le, if_pos (by norm_num),
      cum_vol_le, if_neg (by norm_num)]
    norm_num
  · rw [gvutp_ask]
    show (3 : ℝ) ≤ cum_vol_le 2 [(1, 5), (1, -5), (2, 10)]
    rw [cum_vol_le, if_pos (by norm_num), cum_vol_le, if_pos (by norm_num),
      cum_vol_le, if_pos (by norm_num), cum_vol_le]
    norm_num

/-- C5 amended: for a book whose sides are sorted AND whose level quantities
are all non-negative, `get_price_for_volume` returns `none` when the total
depth is below `v`; returns a price for every positive reachable `v`; the
returned price is the price of the first level at which the running cumulative
volume reaches `v`; and it is the first level price at which
`get_volume_up_to_price` reaches at least `v` (on each side, in that side's
price direction). -/
theorem claim_C5_price_volume_first (ob : Orderbook) (v : ℝ)
    (ha_sort : ob.asks.Pairwise (fun a b => a.1 ≤ b.1))
    (ha_q : ∀ pq ∈ ob.asks, 0 ≤ pq.2)
    (hb_sort : ob.bids.Pairwise (fun a b => b.1 ≤ a.1))
    (hb_q : ∀ pq ∈ ob.bids, 0 ≤ pq.2) :
    (((ob.asks.map Prod.snd).sum < v → ob.get_price_for_volume ("ask") v = none)
      ∧ ((ob.bids.map Prod.snd).sum < v → ob.get_price_for_volume ("bid") v = none))
    ∧ ((0 < v → v ≤ (ob.asks.map Prod.snd).sum →
          ∃ p, ob.get_price_for_volume ("ask") v = some p)
      ∧ (0 < v → v ≤ (ob.bids.map Prod.snd).sum →
          ∃ p, ob.get_price_for_volume ("bid") v = some p))
    ∧ ((∀ p, ob.get_price_for_volume ("ask") v = some p →
          ∃ i, i < ob.asks.length ∧ p = (ob.asks.getD i (0, 0)).1
            ∧ v ≤ ((ob.asks.take (i + 1)).map Prod.snd).sum
            ∧ ∀ j < i, ((ob.asks.take (j + 1)).map Prod.snd).sum < v)
      ∧ (∀ p, ob.get_price_for_volume ("bid") v = some p →
          ∃ i, i < ob.bids.length ∧ p = (ob.bids.getD i (0, 0)).1
            ∧ v ≤ ((ob.bids.take (i + 1)).map Prod.snd).sum
            ∧ ∀ j < i, ((ob.bids.take (j + 1)).map Prod.snd).sum < v))
    ∧ ((∀ p, ob.get_price_for_volume ("ask") v = some p →
          v ≤ ob.get_volume_up_to_price ("ask") p
            ∧ ∀ pq ∈ ob.asks, pq.1 < p → ob.get_volume_up_to_price ("ask") pq.1 < v)
      ∧ (∀ p, ob.get_price_for_volume ("bid") v = some p →
          v ≤ ob.get_volume_up_to_price ("bid") p
            ∧ ∀ pq ∈ ob.bids, p < pq.1 → ob.get_volume_up_to_price ("bid") pq.1 < v)) := by
  refine ⟨⟨?_, ?_⟩, ⟨?_, ?_⟩, ⟨?_, ?_⟩, ⟨?_, ?_⟩⟩
  · intro h
    rw [gpfv_ask]
    exact price_for_vol_none v ob.asks ha_q h
  · intro h
    rw [gpfv_bid]
    exact price_for_vol_none v ob.bids hb_q h
  · intro hv h
    rw [gpfv_ask]
    exact price_for_vol_isSome v ob.asks hv h
  · intro hv h
    rw [gpfv_bid]
    exact price_for_vol_isSome v ob.bids hv h
  · intro p hp
    rw [gpfv_ask] at hp
    exact price_for_vol_first_index v ob.asks p hp
  · intro p hp
    rw [gpfv_bid] at hp
    exact price_for_vol_first_index v ob.bids p hp
  · intro p hp
    rw [gpfv_ask] at hp
    obtain ⟨h1, h2⟩ := price_for_vol_cum_le ob.asks ha_sort ha_q v p hp
    refine ⟨by rw [gvutp_ask]; exact h1, ?_⟩
    intro pq hpq hlt
    rw [gvutp_ask]
    exact h2 pq hpq hlt
  · intro p hp
    rw [gpfv_bid] at hp
    obtain ⟨h1, h2⟩ := price_for_vol_cum_ge ob.bids hb_sort hb_q v p hp
    refine ⟨by rw [gvutp_bid]; exact h1, ?_⟩
    intro pq hpq hlt
    rw [gvutp_bid]
    exact h2 pq hpq hlt


/-- Witness for C5: the amended theorem at the concrete `testBook` with
`v = 2` (equal to the ask depth, above the bid depth). -/
theorem claim_C5_witness :
    (testBook.asks.Pairwise (fun a b => a.1 ≤ b.1)
      ∧ (∀ pq ∈ testBook.asks, 0 ≤ pq.2)
      ∧ testBook.bids.Pairwise (fun a b => b.1 ≤ a.1)
      ∧ (∀ pq ∈ testBook.bids, 0 ≤ pq.2))
    ∧ ((((testBook.asks.map Prod.snd).sum < 2 → testBook.get_price_for_volume ("ask") 2 = none)
      ∧ ((testBook.bids.map Prod.snd).sum < 2 → testBook.get_price_for_volume ("bid") 2 = none))
    ∧ (((0 : ℝ) < 2 → (2 : ℝ) ≤ (testBook.asks.map Prod.snd).sum →
          ∃ p, testBook.get_price_for_volume ("ask") 2 = some p)
      ∧ ((0 : ℝ) < 2 → (2 : ℝ) ≤ (testBook.bids.map Prod.snd).sum →
          ∃ p, testBook.get_price_for_volume ("bid") 2 = some p))
    ∧ ((∀ p, testBook.get_price_for_volume ("ask") 2 = some p →
          ∃ i, i < testBook.asks.length ∧ p = (testBook.asks.getD i (0, 0)).1
            ∧ (2 : ℝ) ≤ ((testBook.asks.take (i + 1)).map Prod.snd).sum
            ∧ ∀ j < i, ((testBook.asks.take (j + 1)).map Prod.snd).sum < 2)
      ∧ (∀ p, testBook.get_price_for_volume ("bid") 2 = some p →
          ∃ i, i < testBook.bids.length ∧ p = (testBook.bids.getD i (0, 0)).1
            ∧ (2 : ℝ) ≤ ((testBook.bids.take (i + 1)).map Prod.snd).sum
            ∧ ∀ j < i, ((testBook.bids.take (j + 1)).map Prod.snd).sum < 2))
    ∧ ((∀ p, testBook.get_price_for_volume ("ask") 2 = some p →
          (2 : ℝ) ≤ testBook.get_volume_up_to_price ("ask") p
            ∧ ∀ pq ∈ testBook.asks, pq.1 < p →
                testBook.get_volume_up_to_price ("ask") pq.1 < 2)
      ∧ (∀ p, testBook.get_price_for_volume ("bid") 2 = some p →
          (2 : ℝ) ≤ testBook.get_volume_up_to_price ("bid") p
            ∧ ∀ pq ∈ testBook.bids, p < pq.1 →
                testBook.get_volume_up_to_price ("bid") pq.1 < 2))) := by
  have ha_sort : testBook.asks.Pairwise (fun a b => a.1 ≤ b.1) := by
    simp [testBook]
  have ha_q : ∀ pq ∈ testBook.asks, (0 : ℝ) ≤ pq.2 := by
    intro pq h
    simp only [testBook, List.mem_cons, List.not_mem_nil, or_false] at h
    subst h
    norm_num
  have hb_sort : testBook.bids.Pairwise (fun a b => b.1 ≤ a.1) := by
    simp [testBook]
  have hb_q : ∀ pq ∈ testBook.bids, (0 : ℝ) ≤ pq.2 := by
    intro pq h
    simp only [testBook, List.mem_cons, List.not_mem_nil, or_false] at h
    subst h
    norm_num
  have h := claim_C5_price_volume_first testBook 2 ha_sort ha_q hb_sort hb_q
  exact ⟨⟨ha_sort, ha_q, hb_sort, hb_q⟩, h.1, h.2.1, h.2.2.1, h.2.2.2.1, h.2.2.2.2⟩

end Trade
